import Mathlib

/-!
# The `update` command of the kubeless CLI

A shallow embedding of `cmd/kubeless/function/update.go`.

The closure `updateCmd.Run` is a straight-line program that talks to external
collaborators (the cluster configuration, the runtime catalog, the local file
system, the descriptor store) and ends the process with `logrus.Fatal` on the
first error.  It is embedded as a function `Run` from a `World` (what every
collaborator answers) and a `Command` (the positional arguments and the flag
values) to an `Exec`: the ordered trace of collaborator calls that were made,
and the way the invocation ended (`.error msg` for a fatal exit with message
`msg`, `.ok ()` for a normal return).
-/

namespace Kubeless

/-! ## Data model -/

/-- Modelled from the spec: the record `kubelessApi.Function`, whose declaration
is outside `update.go`.  The fields are the ones of the FunctionDescriptor of the
data model: identity (name, namespace), runtime identifier, handler reference,
source code payload, dependency manifest, resource requests (cpu, memory),
execution timeout, network exposure (headless, port), labels (a mapping
string to string), environment variables (an ordered sequence of name=value
pairs) and mounted secret references. -/
structure FunctionDescriptor where
  Name : String
  Namespace : String
  Runtime : String
  Handler : String
  Code : String
  Deps : String
  Cpu : String
  Memory : String
  Timeout : String
  Headless : Bool
  Port : Int
  Labels : List (String × String)
  Env : List String
  Secrets : List String
  deriving DecidableEq, Repr

/-- The value `utils.GetConfigLocation` returns: only the two fields `Run` reads. -/
structure ConfigLocation where
  Namespace : String
  Name : String
  deriving DecidableEq, Repr

/-- The config map fetched from the cluster (its data section). -/
structure ConfigMap where
  Data : List (String × String)
  deriving DecidableEq, Repr

/-- The runtime catalog `lr` built by `langruntime.New(config)` followed by
`lr.ReadConfigMap()`: the two methods `Run` calls on it. -/
structure Langruntimes where
  IsValidRuntime : String → Bool
  GetRuntimes : List String

/-- The sixteen override arguments of the call of `getFunctionDescription` at
line 147, in the order of the call (the client handle `cli` carries no data and
the seventeenth argument, `previousFunction`, is kept apart). -/
structure DescriptionArgs where
  funcName : String
  ns : String
  handler : String
  file : String
  deps : String
  runtime : String
  runtimeImage : String
  mem : String
  cpu : String
  timeout : String
  port : Int
  headless : Bool
  envs : List String
  labels : List String
  secrets : List String
  deriving DecidableEq, Repr

/-- What each `cmd.Flags().GetX(name)` of `Run` returns: the value of the flag, or
the error of the lookup.  The fields carry the names of the local variables the
results are assigned to.  An `int32` is an integer; `Run` only compares it. -/
structure Flags where
  ns : Except String String
  handler : Except String String
  file : Except String String
  secrets : Except String (List String)
  runtime : Except String String
  labels : Except String (List String)
  envs : Except String (List String)
  runtimeImage : Except String String
  mem : Except String String
  cpu : Except String String
  timeout : Except String String
  deps : Except String String
  headless : Except String Bool
  port : Except String Int

/-- The flag set as `init` declares it (lines 166 to 181): every flag at its
default value. -/
def init : Flags where
  runtime := .ok ""
  handler := .ok ""
  file := .ok ""
  mem := .ok ""
  cpu := .ok ""
  labels := .ok []
  secrets := .ok []
  envs := .ok []
  ns := .ok ""
  deps := .ok ""
  runtimeImage := .ok ""
  timeout := .ok "180"
  headless := .ok false
  port := .ok 8080

/-- One invocation of the command: the positional arguments and the flags. -/
structure Command where
  args : List String
  flags : Flags

/-- What the collaborators of `Run` answer during one invocation: the cluster
(`utils.GetConfigLocation`, the config map, the default namespace), the catalog
built from the config map, the file system (`ioutil.ReadFile`), the descriptor
store (`utils.GetFunction`, `utils.PatchFunctionCustomResource`, behind the
client of `utils.GetKubelessClientOutCluster`) and the reconciler
`getFunctionDescription`.  An error is the text `logrus.Fatal` prints for it.
`Run` calls each of them at most once, so their answers do not depend on the
calls made before. -/
structure World where
  GetConfigLocation : Except String ConfigLocation
  ConfigMapsGet : String → String → Except String ConfigMap
  langruntimeNew : ConfigMap → Langruntimes
  GetDefaultNamespace : String
  ReadFile : String → Except String String
  GetFunction : String → String → Except String FunctionDescriptor
  getFunctionDescription : DescriptionArgs → FunctionDescriptor → Except String FunctionDescriptor
  GetKubelessClientOutCluster : Except String Unit
  PatchFunctionCustomResource : FunctionDescriptor → Except String Unit

/-- Equality of results is decidable. -/
instance instDecidableEqExcept {ε α : Type} [DecidableEq ε] [DecidableEq α] :
    DecidableEq (Except ε α)
  | .ok a, .ok b =>
    if h : a = b then isTrue (by rw [h]) else isFalse (fun h2 => h (Except.ok.inj h2))
  | .error a, .error b =>
    if h : a = b then isTrue (by rw [h]) else isFalse (fun h2 => h (Except.error.inj h2))
  | .ok _, .error _ => isFalse (fun h => Except.noConfusion h)
  | .error _, .ok _ => isFalse (fun h => Except.noConfusion h)

/-! ## Execution traces -/

/-- The calls `Run` makes outside its own body, with their arguments. -/
inductive Event where
  | GetClientOutOfCluster
  | GetAPIExtensionsClientOutOfCluster
  | GetConfigLocation
  | ConfigMapsGet (controllerNamespace kubelessConfig : String)
  | langruntimeNew (config : ConfigMap)
  | GetDefaultNamespace
  | IsValidRuntime (runtime : String)
  | GetRuntimes
  | ReadFile (deps : String)
  | GetFunction (funcName ns : String)
  | getFunctionDescription (a : DescriptionArgs) (previousFunction : FunctionDescriptor)
  | GetKubelessClientOutCluster
  | PatchFunctionCustomResource (f : FunctionDescriptor)
  | Infof (msg : String)
  deriving DecidableEq, Repr

/-- An execution: the calls made so far, in order, and either the value computed
or the message of the fatal exit. -/
structure Exec (α : Type) where
  trace : List Event
  result : Except String α

/-- Sequencing: the second part runs only when the first did not exit. -/
def Exec.bind {α β : Type} (m : Exec α) (f : α → Exec β) : Exec β :=
  match m.result with
  | .error e => ⟨m.trace, .error e⟩
  | .ok a => ⟨m.trace ++ (f a).trace, (f a).result⟩

instance : Monad Exec where
  pure a := ⟨[], .ok a⟩
  bind := Exec.bind

/-- A call of a collaborator: recorded, and answered with `r`. -/
def call {α : Type} (ev : Event) (r : α) : Exec α := ⟨[ev], .ok r⟩

/-- The process exit of `logrus.Fatal` and `logrus.Fatalf` with message `msg`. -/
def Fatal {α : Type} (msg : String) : Exec α := ⟨[], .error msg⟩

/-- The idiom `if err != nil { logrus.Fatal(err) }`. -/
def orFatal {α : Type} (r : Except String α) : Exec α :=
  match r with
  | .error err => Fatal err
  | .ok v => pure v

/-- The idiom `if err != nil { logrus.Fatalf(format + "%v", err) }`. -/
def orFatalf {α : Type} (format : String) (r : Except String α) : Exec α :=
  match r with
  | .error err => Fatal (format ++ err)
  | .ok v => pure v

/-! ## The command -/

/-- Lines 51 to 54: the function name is the single positional argument. -/
def functionName (args : List String) : Exec String :=
  match args with
  | [a] => pure a
  | _ => Fatal "Need exactly one argument - function name"

/-- Lines 60 to 62: an empty `--namespace` is replaced by the default namespace. -/
def resolveNamespace (w : World) (ns : String) : Exec String :=
  if ns = "" then call .GetDefaultNamespace w.GetDefaultNamespace else pure ns

/-- Lines 84 to 87: the runtime check.  The catalog is asked only for a non-empty
runtime (`&&` evaluates its right operand only when the left one holds), and for
the supported list only on rejection. -/
def checkRuntime (lr : Langruntimes) (runtime : String) : Exec Unit := do
  if runtime ≠ "" then
    if !(← call (.IsValidRuntime runtime) (lr.IsValidRuntime runtime)) then
      let runtimes ← call .GetRuntimes lr.GetRuntimes
      Fatal ("Invalid runtime: " ++ runtime ++ ". Supported runtimes are: "
        ++ ", ".intercalate runtimes)

/-- Lines 122 to 129: the dependency manifest, read from the file `deps` names. -/
def readDeps (w : World) (deps : String) : Exec String := do
  let funcDeps := ""
  if deps ≠ "" then
    match (← call (.ReadFile deps) (w.ReadFile deps)) with
    | .error err => Fatal ("Unable to read file " ++ deps ++ ": " ++ err)
    | .ok bytes => pure bytes
  else
    pure funcDeps

/-- Lines 138 to 140: the port check. -/
def checkPort (port : Int) : Exec Unit := do
  if port ≤ 0 ∨ port > 65535 then
    Fatal ("Invalid port number " ++ toString port ++ " specified")

/-- Lines 35 to 140 of `updateCmd.Run`: the cluster configuration and the runtime
catalog, the identity of the function, and the override values read from the
flags, with the three validations.  The result is the list of values that line
147 hands to `getFunctionDescription`. -/
def buildOverrides (w : World) (cmd : Command) : Exec DescriptionArgs := do
  call .GetClientOutOfCluster ()
  call .GetAPIExtensionsClientOutOfCluster ()
  let configLocation ← orFatalf "Error while fetching config location: "
    (← call .GetConfigLocation w.GetConfigLocation)
  let controllerNamespace := configLocation.Namespace
  let kubelessConfig := configLocation.Name
  let config ← orFatalf "Unable to read the configmap: "
    (← call (.ConfigMapsGet controllerNamespace kubelessConfig)
      (w.ConfigMapsGet controllerNamespace kubelessConfig))
  let lr ← call (.langruntimeNew config) (w.langruntimeNew config)
  let funcName ← functionName cmd.args
  let ns ← orFatal cmd.flags.ns
  let ns ← resolveNamespace w ns
  let handler ← orFatal cmd.flags.handler
  let file ← orFatal cmd.flags.file
  let secrets ← orFatal cmd.flags.secrets
  let runtime ← orFatal cmd.flags.runtime
  checkRuntime lr runtime
  let labels ← orFatal cmd.flags.labels
  let envs ← orFatal cmd.flags.envs
  let runtimeImage ← orFatal cmd.flags.runtimeImage
  let mem ← orFatal cmd.flags.mem
  let cpu ← orFatal cmd.flags.cpu
  let timeout ← orFatal cmd.flags.timeout
  let deps ← orFatal cmd.flags.deps
  let funcDeps ← readDeps w deps
  let headless ← orFatal cmd.flags.headless
  let port ← orFatal cmd.flags.port
  checkPort port
  pure ⟨funcName, ns, handler, file, funcDeps, runtime, runtimeImage, mem, cpu, timeout, port,
    headless, envs, labels, secrets⟩

/-- Lines 142 to 162 of `updateCmd.Run`: the stored descriptor is fetched, the
descriptor to submit is computed by `getFunctionDescription`, and it is patched
into the store. -/
def submit (w : World) (a : DescriptionArgs) : Exec Unit := do
  let previousFunction ← orFatal
    (← call (.GetFunction a.funcName a.ns) (w.GetFunction a.funcName a.ns))
  let f ← orFatal (← call (.getFunctionDescription a previousFunction)
    (w.getFunctionDescription a previousFunction))
  let _kubelessClient ← orFatal
    (← call .GetKubelessClientOutCluster w.GetKubelessClientOutCluster)
  call (.Infof "Redeploying function...") ()
  orFatal (← call (.PatchFunctionCustomResource f) (w.PatchFunctionCustomResource f))
  call (.Infof ("Function " ++ a.funcName ++ " submitted for deployment")) ()
  call (.Infof ("Check the deployment status executing \x27kubeless function ls "
    ++ a.funcName ++ "\x27")) ()

/-- The closure `updateCmd.Run` (lines 34 to 163). -/
def Run (w : World) (cmd : Command) : Exec Unit := do
  let a ← buildOverrides w cmd
  submit w a

/-! ## The reconciler, from the specification

`getFunctionDescription` belongs to the same package as `update.go` but is
declared in another file.  `Run` is embedded for an arbitrary
`World.getFunctionDescription`; where a statement depends on what the reconciler
computes, the definitions below, which follow sections 3, 4.1 and 4.2 of the
specification, are used for it. -/

/-- Modelled from the spec: the OverrideSet of section 3, the changes one
invocation requests.  Every scalar field is present or absent, absence meaning
that the previous value is kept; a collection field is a list, the empty list
meaning that the previous collection is kept. -/
structure OverrideSet where
  runtime : Option String
  handler : Option String
  code : Option String
  deps : Option String
  cpu : Option String
  memory : Option String
  timeout : Option String
  headless : Option Bool
  port : Option Int
  labels : List (String × String)
  env : List String
  secrets : List String
  deriving DecidableEq, Repr

/-- Modelled from the spec: the merge rule of the Reconciler (section 4.2), a
field-level override-or-retain policy.  A scalar field takes the override when it
is present and the previous value otherwise; a collection field is replaced as a
whole by a non-empty override list and retained otherwise; the identity fields
are carried from `previous`. -/
def reconcile (previous : FunctionDescriptor) (o : OverrideSet) : FunctionDescriptor where
  Name := previous.Name
  Namespace := previous.Namespace
  Runtime := o.runtime.getD previous.Runtime
  Handler := o.handler.getD previous.Handler
  Code := o.code.getD previous.Code
  Deps := o.deps.getD previous.Deps
  Cpu := o.cpu.getD previous.Cpu
  Memory := o.memory.getD previous.Memory
  Timeout := o.timeout.getD previous.Timeout
  Headless := o.headless.getD previous.Headless
  Port := o.port.getD previous.Port
  Labels := if o.labels.isEmpty then previous.Labels else o.labels
  Env := if o.env.isEmpty then previous.Env else o.env
  Secrets := if o.secrets.isEmpty then previous.Secrets else o.secrets

/-- Modelled from the spec: the reading of a textual input as an override
(section 4.1): the empty string means that no override is requested. -/
def provided (s : String) : Option String := if s = "" then none else some s

/-- Modelled from the spec: the construction of the OverrideSet (section 4.1)
from the values `getFunctionDescription` receives.  The textual values are read
with `provided`; the port and the headless mode are an integer and a boolean,
which have no empty value, and are overrides as they come; the lists are passed
through, the labels as the pairs `parseLabel` makes of them.  `code` is the
source code read from the file `a.file` names, if one is named.  The runtime
image is not a field of the FunctionDescriptor of section 3 and sets nothing. -/
def overrideSet (parseLabel : String → String × String) (code : Option String)
    (a : DescriptionArgs) : OverrideSet where
  runtime := provided a.runtime
  handler := provided a.handler
  code := code
  deps := provided a.deps
  cpu := provided a.cpu
  memory := provided a.mem
  timeout := provided a.timeout
  headless := some a.headless
  port := some a.port
  labels := a.labels.map parseLabel
  env := a.envs
  secrets := a.secrets

/-- Modelled from the spec: the function `getFunctionDescription` of the package,
which `Run` calls at line 147 and which is declared outside `update.go`: it
builds the OverrideSet and reconciles it with the previous descriptor.
`readCode` reads the source code file and `parseLabel` splits a label; the
specification says of neither more than its result. -/
def getFunctionDescription (readCode : String → Except String String)
    (parseLabel : String → String × String) (a : DescriptionArgs)
    (previousFunction : FunctionDescriptor) : Except String FunctionDescriptor :=
  if a.file = "" then
    .ok (reconcile previousFunction (overrideSet parseLabel none a))
  else
    match readCode a.file with
    | .error err => .error err
    | .ok content => .ok (reconcile previousFunction (overrideSet parseLabel (some content) a))

/-! ## Vocabulary of the statements -/

/-- The values of the flags of an invocation in which every lookup succeeds, as
it does for the flags `init` declares. -/
structure FlagValues where
  ns : String
  handler : String
  file : String
  secrets : List String
  runtime : String
  labels : List String
  envs : List String
  runtimeImage : String
  mem : String
  cpu : String
  timeout : String
  deps : String
  headless : Bool
  port : Int
  deriving DecidableEq, Repr

/-- The flag set in which every lookup succeeds with the value of `v`. -/
def FlagValues.toFlags (v : FlagValues) : Flags where
  ns := .ok v.ns
  handler := .ok v.handler
  file := .ok v.file
  secrets := .ok v.secrets
  runtime := .ok v.runtime
  labels := .ok v.labels
  envs := .ok v.envs
  runtimeImage := .ok v.runtimeImage
  mem := .ok v.mem
  cpu := .ok v.cpu
  timeout := .ok v.timeout
  deps := .ok v.deps
  headless := .ok v.headless
  port := .ok v.port

/-- The namespace of the invocation: the flag when it is not empty, the default
namespace otherwise (lines 56 to 62). -/
def namespaceOf (w : World) (nsFlag : String) : String :=
  if nsFlag = "" then w.GetDefaultNamespace else nsFlag

/-- The calls of lines 35 to 140 in an invocation that passes every step up to
the dependency file: the cluster configuration, the default namespace when the
flag is empty, the catalog lookup when a runtime is given, the file read when a
dependency file is given. -/
def setupCalls (loc : ConfigLocation) (config : ConfigMap) (nsFlag runtime deps : String) :
    List Event :=
  [.GetClientOutOfCluster, .GetAPIExtensionsClientOutOfCluster, .GetConfigLocation,
    .ConfigMapsGet loc.Namespace loc.Name, .langruntimeNew config]
  ++ (if nsFlag = "" then [.GetDefaultNamespace] else [])
  ++ (if runtime = "" then [] else [.IsValidRuntime runtime])
  ++ (if deps = "" then [] else [.ReadFile deps])

/-- The calls of lines 35 to 140: everything `Run` calls before it fetches the
stored descriptor. -/
def Event.isSetup : Event → Bool
  | .GetClientOutOfCluster | .GetAPIExtensionsClientOutOfCluster | .GetConfigLocation
  | .ConfigMapsGet _ _ | .langruntimeNew _ | .GetDefaultNamespace | .IsValidRuntime _
  | .GetRuntimes | .ReadFile _ => true
  | _ => false

/-- A read of the dependency file. -/
def Event.isReadFile : Event → Bool
  | .ReadFile _ => true
  | _ => false

/-- A patch submitted to the descriptor store. -/
def Event.isPatch : Event → Bool
  | .PatchFunctionCustomResource _ => true
  | _ => false

/-- A fetch of the stored descriptor. -/
def Event.isGetFunction : Event → Bool
  | .GetFunction _ _ => true
  | _ => false

/-- A call of an override-construction step: the catalog validation of the
runtime or the read of the dependency file. -/
def Event.isOverrideStep : Event → Bool
  | .IsValidRuntime _ | .GetRuntimes | .ReadFile _ => true
  | _ => false

/-- The execution `m` with the calls `t` made before it. -/
def Exec.after {α : Type} (t : List Event) (m : Exec α) : Exec α := ⟨t ++ m.trace, m.result⟩

/-- Every call of the execution satisfies `P`. -/
structure Exec.Calls {α : Type} (P : Event → Prop) (m : Exec α) : Prop where
  all : ∀ e ∈ m.trace, P e


/-- What is known of every call of the override construction: it is a call of
lines 35 to 140, and a file read is the read of the file the `dependencies` flag
names. -/
def setupCall (cmd : Command) (e : Event) : Prop :=
  e.isSetup = true ∧
  (e.isReadFile = true → ∃ deps, cmd.flags.deps = .ok deps ∧ deps ≠ "" ∧ e = .ReadFile deps)


/-- The execution makes at most `n` calls of the kind `p`. -/
structure Exec.CountLe {α : Type} (p : Event → Bool) (n : Nat) (m : Exec α) : Prop where
  le : (m.trace.filter p).length ≤ n


/-! ## An example cluster -/

/-- A catalog of two runtimes. -/
def exampleCatalog : Langruntimes where
  IsValidRuntime := fun r => ["python2.7", "nodejs6"].contains r
  GetRuntimes := ["python2.7", "nodejs6"]

/-- The descriptor of the function `foo` as the example store holds it. -/
def exampleStored : FunctionDescriptor where
  Name := "foo"
  Namespace := "default"
  Runtime := "python2.7"
  Handler := "handler.hello"
  Code := "def hello(event, context): return 1"
  Deps := ""
  Cpu := ""
  Memory := ""
  Timeout := "30"
  Headless := false
  Port := 8080
  Labels := []
  Env := []
  Secrets := []

/-- A label `key=value` as the pair of its key and its value. -/
def exampleParseLabel (s : String) : String × String :=
  match s.splitOn "=" with
  | [k, v] => (k, v)
  | _ => (s, "")

/-- A cluster with the catalog `exampleCatalog`, one stored function `foo` in the
namespace `default`, and one readable file `requirements.txt`. -/
def exampleWorld : World where
  GetConfigLocation := .ok ⟨"kubeless", "kubeless-config"⟩
  ConfigMapsGet := fun ns name =>
    if ns = "kubeless" ∧ name = "kubeless-config" then .ok ⟨[]⟩ else .error "configmap not found"
  langruntimeNew := fun _ => exampleCatalog
  GetDefaultNamespace := "default"
  ReadFile := fun path =>
    if path = "requirements.txt" then .ok "flask==1.0" else .error "no such file or directory"
  GetFunction := fun funcName ns =>
    if funcName = "foo" ∧ ns = "default" then .ok exampleStored else .error "function not found"
  getFunctionDescription :=
    getFunctionDescription (fun _ => .error "no such file or directory") exampleParseLabel
  GetKubelessClientOutCluster := .ok ()
  PatchFunctionCustomResource := fun _ => .ok ()

/-- The example cluster with a store that refuses every patch. -/
def conflictWorld : World :=
  { exampleWorld with PatchFunctionCustomResource := fun _ => .error "conflict" }

/-- The flag values of `init`: no flag set. -/
def initValues : FlagValues where
  ns := ""
  handler := ""
  file := ""
  secrets := []
  runtime := ""
  labels := []
  envs := []
  runtimeImage := ""
  mem := ""
  cpu := ""
  timeout := "180"
  deps := ""
  headless := false
  port := 8080

/-- The flag values of `update foo --runtime python2.7 --dependencies
requirements.txt --handler handler.hi --timeout 10 --port 9090 --env A=1 --env
B=2`. -/
def exampleValues : FlagValues :=
  { initValues with
    runtime := "python2.7", deps := "requirements.txt", handler := "handler.hi",
    timeout := "10", port := 9090, envs := ["A=1", "B=2"] }

/-! ## Sequencing lemmas -/

section kit
variable {α β : Type}

theorem pure_eq (a : α) : (pure a : Exec α) = ⟨[], .ok a⟩ := rfl

theorem call_bind (ev : Event) (r : α) (f : α → Exec β) :
    (call ev r >>= f) = Exec.after [ev] (f r) := rfl

theorem mk_ok_bind (t : List Event) (a : α) (f : α → Exec β) :
    ((⟨t, .ok a⟩ : Exec α) >>= f) = Exec.after t (f a) := rfl

theorem mk_error_bind (t : List Event) (e : String) (f : α → Exec β) :
    ((⟨t, .error e⟩ : Exec α) >>= f) = ⟨t, .error e⟩ := rfl

theorem Fatal_bind (msg : String) (f : α → Exec β) :
    ((Fatal msg : Exec α) >>= f) = Fatal msg := rfl

theorem after_bind (t : List Event) (m : Exec α) (f : α → Exec β) :
    (Exec.after t m >>= f) = Exec.after t (m >>= f) := by
  obtain ⟨mt, mr⟩ := m
  cases mr <;> simp [Exec.after, bind, Exec.bind]

theorem after_after (t u : List Event) (m : Exec α) :
    Exec.after t (Exec.after u m) = Exec.after (t ++ u) m := by
  simp [Exec.after]

theorem after_nil (m : Exec α) : Exec.after [] m = m := rfl

theorem orFatal_error (e : String) : orFatal (.error e) = (Fatal e : Exec α) := rfl

theorem orFatalf_error (s e : String) : orFatalf s (.error e) = (Fatal (s ++ e) : Exec α) := rfl

theorem orFatal_bind (r : Except String α) (f : α → Exec β) :
    (orFatal r >>= f) = match r with
      | .error e => ⟨[], .error e⟩
      | .ok v => f v := by
  cases r <;> rfl

theorem orFatalf_bind (s : String) (r : Except String α) (f : α → Exec β) :
    (orFatalf s r >>= f) = match r with
      | .error e => ⟨[], .error (s ++ e)⟩
      | .ok v => f v := by
  cases r <;> rfl

theorem ite_ok_bind (c : Prop) [Decidable c] (t u : List Event) (x : α) (e : String)
    (f : α → Exec β) :
    ((if c then (⟨t, .ok x⟩ : Exec α) else ⟨u, .error e⟩) >>= f) =
      if c then Exec.after t (f x) else ⟨u, .error e⟩ := by
  split <;> rfl

theorem bind_ok (m : Exec α) (f : α → Exec β) (t : List Event) (b : β)
    (h : (m >>= f) = ⟨t, .ok b⟩) :
    ∃ a t1 t2, m = ⟨t1, .ok a⟩ ∧ f a = ⟨t2, .ok b⟩ ∧ t = t1 ++ t2 := by
  obtain ⟨mt, mr⟩ := m
  cases mr with
  | error e => simp [bind, Exec.bind] at h
  | ok a =>
    simp only [bind, Exec.bind] at h
    injection h with h1 h2
    exact ⟨a, mt, (f a).trace, rfl, by rw [← h2], h1.symm⟩

theorem call_bind_ok (ev : Event) (r : α) (f : α → Exec β) (t : List Event) (b : β)
    (h : (call ev r >>= f) = ⟨t, .ok b⟩) : ∃ t2, f r = ⟨t2, .ok b⟩ ∧ t = ev :: t2 := by
  obtain ⟨a, t1, t2, h1, h2, rfl⟩ := bind_ok _ _ _ _ h
  injection h1 with h3 h4
  injection h4 with h5
  subst h3 h5
  exact ⟨t2, h2, rfl⟩

theorem orFatal_bind_ok (r : Except String α) (f : α → Exec β) (t : List Event) (b : β)
    (h : (orFatal r >>= f) = ⟨t, .ok b⟩) : ∃ v, r = .ok v ∧ f v = ⟨t, .ok b⟩ := by
  cases r with
  | error e =>
    rw [orFatal_error, Fatal_bind] at h
    injection h with h1 h2
    cases h2
  | ok v => exact ⟨v, rfl, h⟩

theorem orFatalf_bind_ok (s : String) (r : Except String α) (f : α → Exec β) (t : List Event)
    (b : β) (h : (orFatalf s r >>= f) = ⟨t, .ok b⟩) : ∃ v, r = .ok v ∧ f v = ⟨t, .ok b⟩ := by
  cases r with
  | error e =>
    rw [orFatalf_error, Fatal_bind] at h
    injection h with h1 h2
    cases h2
  | ok v => exact ⟨v, rfl, h⟩

end kit

/-! ## The blocks of `Run` in closed form -/

theorem functionName_eq (args : List String) :
    functionName args =
      match args with
      | [a] => ⟨[], .ok a⟩
      | _ => ⟨[], .error "Need exactly one argument - function name"⟩ := by
  unfold functionName; split <;> rfl

theorem functionName_bind {β : Type} (args : List String) (f : String → Exec β) :
    (functionName args >>= f) = match args with
      | [a] => f a
      | _ => ⟨[], .error "Need exactly one argument - function name"⟩ := by
  unfold functionName; split <;> rfl

theorem resolveNamespace_eq (w : World) (ns : String) :
    resolveNamespace w ns =
      ⟨if ns = "" then [.GetDefaultNamespace] else [], .ok (namespaceOf w ns)⟩ := by
  unfold resolveNamespace namespaceOf; split <;> rfl

theorem checkRuntime_eq (lr : Langruntimes) (runtime : String) :
    checkRuntime lr runtime =
      if runtime = "" ∨ lr.IsValidRuntime runtime = true then
        ⟨if runtime = "" then [] else [.IsValidRuntime runtime], .ok ()⟩
      else ⟨[.IsValidRuntime runtime, .GetRuntimes],
        .error ("Invalid runtime: " ++ runtime ++ ". Supported runtimes are: "
          ++ ", ".intercalate lr.GetRuntimes)⟩ := by
  unfold checkRuntime
  by_cases h : runtime = ""
  · simp [h, pure_eq]
  · cases hv : lr.IsValidRuntime runtime <;>
      simp [h, hv, call_bind, Exec.after, Fatal, pure_eq]

theorem readDeps_eq (w : World) (deps : String) :
    readDeps w deps =
      if deps = "" then ⟨[], .ok ""⟩
      else match w.ReadFile deps with
        | .ok bytes => ⟨[.ReadFile deps], .ok bytes⟩
        | .error err =>
          ⟨[.ReadFile deps], .error ("Unable to read file " ++ deps ++ ": " ++ err)⟩ := by
  unfold readDeps
  by_cases h : deps = ""
  · simp [h, pure_eq]
  · cases hv : w.ReadFile deps <;>
      simp [h, hv, call_bind, Exec.after, Fatal, pure_eq]

theorem readDeps_bind {β : Type} (w : World) (deps : String) (f : String → Exec β) :
    (readDeps w deps >>= f) =
      match (if deps = "" then .ok "" else w.ReadFile deps : Except String String) with
      | .ok bytes => Exec.after (if deps = "" then [] else [.ReadFile deps]) (f bytes)
      | .error err =>
        ⟨[.ReadFile deps], .error ("Unable to read file " ++ deps ++ ": " ++ err)⟩ := by
  rw [readDeps_eq]
  by_cases h : deps = ""
  · simp [h, mk_ok_bind]
  · cases hv : w.ReadFile deps <;> simp [h, hv, mk_ok_bind, mk_error_bind]

theorem checkPort_eq (port : Int) :
    checkPort port =
      if 1 ≤ port ∧ port ≤ 65535 then ⟨[], .ok ()⟩
      else ⟨[], .error ("Invalid port number " ++ toString port ++ " specified")⟩ := by
  unfold checkPort
  by_cases h : 1 ≤ port ∧ port ≤ 65535
  · have h2 : ¬ (port ≤ 0 ∨ port > 65535) := by omega
    simp [h, h2, pure_eq]
  · have h2 : (port ≤ 0 ∨ port > 65535) := by omega
    simp [h, h2, Fatal]

theorem functionName_eq_ok (args : List String) (x : String) (t : List Event)
    (h : functionName args = ⟨t, .ok x⟩) : t = [] ∧ args = [x] := by
  rw [functionName_eq] at h
  split at h
  · injection h with h1 h2
    injection h2 with h3
    subst h1 h3
    exact ⟨rfl, rfl⟩
  · injection h with h1 h2
    cases h2

theorem resolveNamespace_eq_ok (w : World) (ns x : String) (t : List Event)
    (h : resolveNamespace w ns = ⟨t, .ok x⟩) :
      t = (if ns = "" then [.GetDefaultNamespace] else []) ∧ x = namespaceOf w ns := by
  rw [resolveNamespace_eq] at h
  injection h with h1 h2
  injection h2 with h3
  exact ⟨h1.symm, h3.symm⟩

theorem checkRuntime_eq_ok (lr : Langruntimes) (runtime : String) (x : Unit) (t : List Event)
    (h : checkRuntime lr runtime = ⟨t, .ok x⟩) :
      t = (if runtime = "" then [] else [.IsValidRuntime runtime]) ∧
      (runtime = "" ∨ lr.IsValidRuntime runtime = true) := by
  rw [checkRuntime_eq] at h
  by_cases hr : runtime = "" ∨ lr.IsValidRuntime runtime = true
  · rw [if_pos hr] at h
    injection h with h1 h2
    exact ⟨h1.symm, hr⟩
  · rw [if_neg hr] at h
    injection h with h1 h2
    cases h2

theorem readDeps_eq_ok (w : World) (deps x : String) (t : List Event)
    (h : readDeps w deps = ⟨t, .ok x⟩) :
      t = (if deps = "" then [] else [.ReadFile deps]) ∧
      (if deps = "" then x = "" else w.ReadFile deps = .ok x) := by
  rw [readDeps_eq] at h
  by_cases hd : deps = ""
  · rw [if_pos hd] at h
    injection h with h1 h2
    injection h2 with h3
    subst h1 h3
    simp [hd]
  · rw [if_neg hd] at h
    cases hv : w.ReadFile deps with
    | error e =>
      rw [hv] at h
      injection h with h1 h2
      cases h2
    | ok c =>
      rw [hv] at h
      injection h with h1 h2
      injection h2 with h3
      subst h1 h3
      simp [hd]

theorem checkPort_eq_ok (port : Int) (x : Unit) (t : List Event)
    (h : checkPort port = ⟨t, .ok x⟩) : t = [] ∧ 1 ≤ port ∧ port ≤ 65535 := by
  rw [checkPort_eq] at h
  by_cases hp : 1 ≤ port ∧ port ≤ 65535
  · rw [if_pos hp] at h
    injection h with h1 h2
    exact ⟨h1.symm, hp⟩
  · rw [if_neg hp] at h
    injection h with h1 h2
    cases h2

/-! ## The override construction, lines 35 to 140 -/

/-- When the override construction returns, every step of it has passed, the
values it returns are the ones of the flags, and its calls are `setupCalls`. -/
theorem buildOverrides_ok (w : World) (cmd : Command) (a : DescriptionArgs) (t : List Event)
    (h : buildOverrides w cmd = ⟨t, .ok a⟩) :
    ∃ loc config nsFlag depsFlag,
      w.GetConfigLocation = .ok loc ∧
      w.ConfigMapsGet loc.Namespace loc.Name = .ok config ∧
      cmd.args = [a.funcName] ∧
      cmd.flags.ns = .ok nsFlag ∧
      a.ns = namespaceOf w nsFlag ∧
      cmd.flags.handler = .ok a.handler ∧
      cmd.flags.file = .ok a.file ∧
      cmd.flags.secrets = .ok a.secrets ∧
      cmd.flags.runtime = .ok a.runtime ∧
      (a.runtime = "" ∨ (w.langruntimeNew config).IsValidRuntime a.runtime = true) ∧
      cmd.flags.labels = .ok a.labels ∧
      cmd.flags.envs = .ok a.envs ∧
      cmd.flags.runtimeImage = .ok a.runtimeImage ∧
      cmd.flags.mem = .ok a.mem ∧
      cmd.flags.cpu = .ok a.cpu ∧
      cmd.flags.timeout = .ok a.timeout ∧
      cmd.flags.deps = .ok depsFlag ∧
      (if depsFlag = "" then a.deps = "" else w.ReadFile depsFlag = .ok a.deps) ∧
      cmd.flags.headless = .ok a.headless ∧
      cmd.flags.port = .ok a.port ∧
      1 ≤ a.port ∧ a.port ≤ 65535 ∧
      t = setupCalls loc config nsFlag a.runtime depsFlag := by
  unfold buildOverrides at h
  obtain ⟨t1, h, ht1⟩ := call_bind_ok _ _ _ _ _ h
  obtain ⟨t2, h, ht2⟩ := call_bind_ok _ _ _ _ _ h
  obtain ⟨t3, h, ht3⟩ := call_bind_ok _ _ _ _ _ h
  obtain ⟨loc, hloc, h⟩ := orFatalf_bind_ok _ _ _ _ _ h
  obtain ⟨t4, h, ht4⟩ := call_bind_ok _ _ _ _ _ h
  obtain ⟨config, hcfg, h⟩ := orFatalf_bind_ok _ _ _ _ _ h
  obtain ⟨t5, h, ht5⟩ := call_bind_ok _ _ _ _ _ h
  obtain ⟨funcName, u6, t6, h1, h, ht6⟩ := bind_ok _ _ _ _ h
  obtain ⟨hu6, hargs⟩ := functionName_eq_ok _ _ _ h1
  obtain ⟨nsFlag, hns, h⟩ := orFatal_bind_ok _ _ _ _ h
  obtain ⟨ns, u7, t7, h1, h, ht7⟩ := bind_ok _ _ _ _ h
  obtain ⟨hu7, hnsval⟩ := resolveNamespace_eq_ok _ _ _ _ h1
  obtain ⟨handler, hhandler, h⟩ := orFatal_bind_ok _ _ _ _ h
  obtain ⟨file, hfile, h⟩ := orFatal_bind_ok _ _ _ _ h
  obtain ⟨secrets, hsecrets, h⟩ := orFatal_bind_ok _ _ _ _ h
  obtain ⟨runtime, hruntime, h⟩ := orFatal_bind_ok _ _ _ _ h
  obtain ⟨u, u8, t8, h1, h, ht8⟩ := bind_ok _ _ _ _ h
  obtain ⟨hu8, hvalid⟩ := checkRuntime_eq_ok _ _ _ _ h1
  obtain ⟨labels, hlabels, h⟩ := orFatal_bind_ok _ _ _ _ h
  obtain ⟨envs, henvs, h⟩ := orFatal_bind_ok _ _ _ _ h
  obtain ⟨runtimeImage, himg, h⟩ := orFatal_bind_ok _ _ _ _ h
  obtain ⟨mem, hmem, h⟩ := orFatal_bind_ok _ _ _ _ h
  obtain ⟨cpu, hcpu, h⟩ := orFatal_bind_ok _ _ _ _ h
  obtain ⟨timeout, htimeout, h⟩ := orFatal_bind_ok _ _ _ _ h
  obtain ⟨depsFlag, hdeps, h⟩ := orFatal_bind_ok _ _ _ _ h
  obtain ⟨funcDeps, u9, t9, h1, h, ht9⟩ := bind_ok _ _ _ _ h
  obtain ⟨hu9, hread⟩ := readDeps_eq_ok _ _ _ _ h1
  obtain ⟨headless, hheadless, h⟩ := orFatal_bind_ok _ _ _ _ h
  obtain ⟨port, hport, h⟩ := orFatal_bind_ok _ _ _ _ h
  obtain ⟨u, u10, t10, h1, h, ht10⟩ := bind_ok _ _ _ _ h
  obtain ⟨hu10, hrange⟩ := checkPort_eq_ok _ _ _ h1
  rw [pure_eq] at h
  injection h with h1 h2
  injection h2 with h3
  subst h3
  refine ⟨loc, config, nsFlag, depsFlag, hloc, hcfg, hargs, hns, hnsval, hhandler, hfile,
    hsecrets, hruntime, hvalid, hlabels, henvs, himg, hmem, hcpu, htimeout, hdeps, hread,
    hheadless, hport, hrange.1, hrange.2, ?_⟩
  rw [ht1, ht2, ht3, ht4, ht5, ht6, ht7, ht8, ht9, ht10, hu6, hu7, hu8, hu9, hu10, ← h1]
  simp [setupCalls]

theorem Calls_bind {α β : Type} (P : Event → Prop) (m : Exec α) (f : α → Exec β)
    (hm : m.Calls P) (hf : ∀ a, m.result = .ok a → (f a).Calls P) : (m >>= f).Calls P := by
  obtain ⟨mt, mr⟩ := m
  cases mr with
  | error e => exact ⟨hm.all⟩
  | ok a =>
    refine ⟨fun e he => ?_⟩
    have he2 : e ∈ mt ++ (f a).trace := he
    rcases List.mem_append.mp he2 with h | h
    · exact hm.all e h
    · exact (hf a rfl).all e h

theorem Calls_nil {α : Type} (P : Event → Prop) (r : Except String α) :
    (⟨[], r⟩ : Exec α).Calls P := ⟨fun e he => by cases he⟩

theorem Calls_orFatal {α : Type} (P : Event → Prop) (r : Except String α) :
    (orFatal r).Calls P := by
  cases r <;> exact Calls_nil _ _

theorem Calls_orFatalf {α : Type} (P : Event → Prop) (s : String) (r : Except String α) :
    (orFatalf s r).Calls P := by
  cases r <;> exact Calls_nil _ _

theorem Calls_call {α : Type} (P : Event → Prop) (ev : Event) (r : α) (h : P ev) :
    (call ev r).Calls P := by
  refine ⟨fun e he => ?_⟩
  have h2 : e = ev := by simpa [call] using he
  rw [h2]; exact h

theorem Calls_pure {α : Type} (P : Event → Prop) (a : α) : (pure a : Exec α).Calls P :=
  Calls_nil _ _

theorem Calls_functionName (P : Event → Prop) (args : List String) :
    (functionName args).Calls P := by
  rw [functionName_eq]; split <;> exact Calls_nil _ _

theorem Calls_checkPort (P : Event → Prop) (port : Int) : (checkPort port).Calls P := by
  rw [checkPort_eq]; split <;> exact Calls_nil _ _

theorem orFatal_result {α : Type} (r : Except String α) (a : α)
    (h : (orFatal r).result = .ok a) : r = .ok a := by
  cases r with
  | error e => cases h
  | ok v => exact h

theorem Calls_resolveNamespace (P : Event → Prop) (w : World) (ns : String)
    (h : P .GetDefaultNamespace) : (resolveNamespace w ns).Calls P := by
  rw [resolveNamespace_eq]
  refine ⟨fun e he => ?_⟩
  split at he
  · have h2 : e = .GetDefaultNamespace := by simpa using he
    rw [h2]; exact h
  · cases he

theorem Calls_checkRuntime (P : Event → Prop) (lr : Langruntimes) (runtime : String)
    (h1 : P (.IsValidRuntime runtime)) (h2 : P .GetRuntimes) :
    (checkRuntime lr runtime).Calls P := by
  rw [checkRuntime_eq]
  refine ⟨fun e he => ?_⟩
  split at he
  · split at he
    · cases he
    · have h3 : e = .IsValidRuntime runtime := by simpa using he
      rw [h3]; exact h1
  · have h3 : e = .IsValidRuntime runtime ∨ e = .GetRuntimes := by simpa using he
    rcases h3 with h3 | h3 <;> rw [h3] <;> assumption

theorem Calls_readDeps (cmd : Command) (w : World) (deps : String)
    (h : cmd.flags.deps = .ok deps) : (readDeps w deps).Calls (setupCall cmd) := by
  rw [readDeps_eq]
  refine ⟨fun e he => ?_⟩
  split at he
  · cases he
  · rename_i hne
    have h2 : e = .ReadFile deps := by
      split at he <;> simpa using he
    subst h2
    exact ⟨rfl, fun _ => ⟨deps, h, hne, rfl⟩⟩

theorem buildOverrides_calls (w : World) (cmd : Command) :
    (buildOverrides w cmd).Calls (setupCall cmd) := by
  unfold buildOverrides
  repeat' (first
    | apply Calls_bind
    | apply Calls_orFatal
    | apply Calls_orFatalf
    | apply Calls_pure
    | apply Calls_functionName
    | apply Calls_checkPort
    | (apply Calls_resolveNamespace; simp [setupCall, Event.isSetup, Event.isReadFile])
    | (apply Calls_checkRuntime <;> simp [setupCall, Event.isSetup, Event.isReadFile])
    | exact Calls_readDeps _ _ _ (orFatal_result _ _ (by assumption))
    | (apply Calls_call; simp [setupCall, Event.isSetup, Event.isReadFile])
    | intro _ _)

theorem CountLe_bind_left {α β : Type} (p : Event → Bool) (n : Nat) (m : Exec α)
    (f : α → Exec β) (hm : m.CountLe p 0) (hf : ∀ a, (f a).CountLe p n) :
    (m >>= f).CountLe p n := by
  obtain ⟨mt, mr⟩ := m
  have h0 := hm.le
  cases mr with
  | error e => exact ⟨Nat.le_trans h0 (Nat.zero_le n)⟩
  | ok a =>
    refine ⟨?_⟩
    have ht : (Exec.mk mt (Except.ok a) >>= f).trace = mt ++ (f a).trace := rfl
    have h1 := (hf a).le
    simp only [ht, List.filter_append, List.length_append]
    simp only at h0
    omega

theorem CountLe_bind_right {α β : Type} (p : Event → Bool) (n : Nat) (m : Exec α)
    (f : α → Exec β) (hm : m.CountLe p n) (hf : ∀ a, (f a).CountLe p 0) :
    (m >>= f).CountLe p n := by
  obtain ⟨mt, mr⟩ := m
  have h0 := hm.le
  cases mr with
  | error e => exact ⟨h0⟩
  | ok a =>
    refine ⟨?_⟩
    have ht : (Exec.mk mt (Except.ok a) >>= f).trace = mt ++ (f a).trace := rfl
    have h1 := (hf a).le
    simp only [ht, List.filter_append, List.length_append]
    simp only at h0
    omega

theorem CountLe_of_calls {α : Type} (p : Event → Bool) (n : Nat) (m : Exec α)
    (h : m.Calls (fun e => p e = false)) : m.CountLe p n := by
  refine ⟨?_⟩
  have h2 : m.trace.filter p = [] := by
    rw [List.filter_eq_nil_iff]
    intro e he
    simp [h.all e he]
  simp [h2]

theorem CountLe_readDeps (w : World) (deps : String) :
    (readDeps w deps).CountLe Event.isReadFile 1 := by
  rw [readDeps_eq]
  refine ⟨?_⟩
  split
  · simp
  · split <;> simp [Event.isReadFile]

theorem buildOverrides_reads (w : World) (cmd : Command) :
    (buildOverrides w cmd).CountLe Event.isReadFile 1 := by
  unfold buildOverrides
  repeat' (first
    | (refine CountLe_bind_left _ _ _ _ (CountLe_of_calls _ _ _ (by
        first
        | apply Calls_orFatal
        | apply Calls_orFatalf
        | apply Calls_functionName
        | (apply Calls_resolveNamespace; rfl)
        | (apply Calls_checkRuntime <;> rfl)
        | apply Calls_checkPort
        | (apply Calls_call; rfl))) (fun _ => ?_))
    | (refine CountLe_bind_right _ _ _ _ (CountLe_readDeps _ _) (fun _ => ?_))
    | exact CountLe_of_calls _ _ _ (Calls_pure _ _))

/-- The override construction of an invocation in which every step passes. -/
theorem buildOverrides_of_pass (w : World) (n : String) (v : FlagValues) (loc : ConfigLocation)
    (config : ConfigMap) (content : String)
    (hloc : w.GetConfigLocation = .ok loc)
    (hcfg : w.ConfigMapsGet loc.Namespace loc.Name = .ok config)
    (hrt : v.runtime = "" ∨ (w.langruntimeNew config).IsValidRuntime v.runtime = true)
    (hdeps : if v.deps = "" then content = "" else w.ReadFile v.deps = .ok content)
    (hport : 1 ≤ v.port ∧ v.port ≤ 65535) :
    buildOverrides w ⟨[n], v.toFlags⟩ =
      ⟨setupCalls loc config v.ns v.runtime v.deps,
        .ok ⟨n, namespaceOf w v.ns, v.handler, v.file, content, v.runtime, v.runtimeImage,
          v.mem, v.cpu, v.timeout, v.port, v.headless, v.envs, v.labels, v.secrets⟩⟩ := by
  simp only [buildOverrides, FlagValues.toFlags, call_bind, after_bind, after_after,
    orFatal_bind, orFatalf_bind, functionName_bind, resolveNamespace_eq, checkRuntime_eq,
    readDeps_bind, checkPort_eq, mk_ok_bind, ite_ok_bind, pure_eq, after_nil, hloc, hcfg,
    if_pos hrt, if_pos hport]
  by_cases hd : v.deps = ""
  · rw [if_pos hd] at hdeps
    simp [hd, hdeps, Exec.after, setupCalls]
  · rw [if_neg hd] at hdeps
    simp [hd, hdeps, Exec.after, setupCalls]

/-- The override construction of an invocation whose runtime the catalog
rejects. -/
theorem buildOverrides_of_bad_runtime (w : World) (n : String) (v : FlagValues)
    (loc : ConfigLocation) (config : ConfigMap)
    (hloc : w.GetConfigLocation = .ok loc)
    (hcfg : w.ConfigMapsGet loc.Namespace loc.Name = .ok config)
    (hne : v.runtime ≠ "")
    (hrt : (w.langruntimeNew config).IsValidRuntime v.runtime = false) :
    buildOverrides w ⟨[n], v.toFlags⟩ =
      ⟨setupCalls loc config v.ns v.runtime "" ++ [.GetRuntimes],
        .error ("Invalid runtime: " ++ v.runtime ++ ". Supported runtimes are: "
          ++ ", ".intercalate (w.langruntimeNew config).GetRuntimes)⟩ := by
  have hc : ¬ (v.runtime = "" ∨ (w.langruntimeNew config).IsValidRuntime v.runtime = true) := by
    simp [hne, hrt]
  simp only [buildOverrides, FlagValues.toFlags, call_bind, after_bind, after_after,
    orFatal_bind, orFatalf_bind, functionName_bind, resolveNamespace_eq, checkRuntime_eq,
    readDeps_bind, checkPort_eq, mk_ok_bind, ite_ok_bind, pure_eq, after_nil, hloc, hcfg,
    if_neg hc]
  simp [hne, Exec.after, setupCalls]

/-- The override construction of an invocation whose dependency file cannot be
read. -/
theorem buildOverrides_of_bad_deps (w : World) (n : String) (v : FlagValues)
    (loc : ConfigLocation) (config : ConfigMap) (err : String)
    (hloc : w.GetConfigLocation = .ok loc)
    (hcfg : w.ConfigMapsGet loc.Namespace loc.Name = .ok config)
    (hrt : v.runtime = "" ∨ (w.langruntimeNew config).IsValidRuntime v.runtime = true)
    (hne : v.deps ≠ "")
    (hdeps : w.ReadFile v.deps = .error err) :
    buildOverrides w ⟨[n], v.toFlags⟩ =
      ⟨setupCalls loc config v.ns v.runtime v.deps,
        .error ("Unable to read file " ++ v.deps ++ ": " ++ err)⟩ := by
  simp only [buildOverrides, FlagValues.toFlags, call_bind, after_bind, after_after,
    orFatal_bind, orFatalf_bind, functionName_bind, resolveNamespace_eq, checkRuntime_eq,
    readDeps_bind, checkPort_eq, mk_ok_bind, ite_ok_bind, pure_eq, after_nil, hloc, hcfg,
    if_pos hrt]
  simp [hne, hdeps, Exec.after, setupCalls]

/-- The override construction of an invocation whose port is out of range. -/
theorem buildOverrides_of_bad_port (w : World) (n : String) (v : FlagValues)
    (loc : ConfigLocation) (config : ConfigMap) (content : String)
    (hloc : w.GetConfigLocation = .ok loc)
    (hcfg : w.ConfigMapsGet loc.Namespace loc.Name = .ok config)
    (hrt : v.runtime = "" ∨ (w.langruntimeNew config).IsValidRuntime v.runtime = true)
    (hdeps : if v.deps = "" then content = "" else w.ReadFile v.deps = .ok content)
    (hport : ¬ (1 ≤ v.port ∧ v.port ≤ 65535)) :
    buildOverrides w ⟨[n], v.toFlags⟩ =
      ⟨setupCalls loc config v.ns v.runtime v.deps,
        .error ("Invalid port number " ++ toString v.port ++ " specified")⟩ := by
  simp only [buildOverrides, FlagValues.toFlags, call_bind, after_bind, after_after,
    orFatal_bind, orFatalf_bind, functionName_bind, resolveNamespace_eq, checkRuntime_eq,
    readDeps_bind, checkPort_eq, mk_ok_bind, ite_ok_bind, pure_eq, after_nil, hloc, hcfg,
    if_pos hrt, if_neg hport]
  by_cases hd : v.deps = ""
  · rw [if_pos hd] at hdeps
    simp [hd, hdeps, Exec.after, setupCalls]
  · rw [if_neg hd] at hdeps
    simp [hd, hdeps, Exec.after, setupCalls]

/-! ## The submission, lines 142 to 162 -/

/-- The five ways the submission can end. -/
theorem submit_eq (w : World) (a : DescriptionArgs) :
    submit w a =
      match w.GetFunction a.funcName a.ns with
      | .error e => ⟨[.GetFunction a.funcName a.ns], .error e⟩
      | .ok p =>
        match w.getFunctionDescription a p with
        | .error e => ⟨[.GetFunction a.funcName a.ns, .getFunctionDescription a p], .error e⟩
        | .ok f =>
          match w.GetKubelessClientOutCluster with
          | .error e =>
            ⟨[.GetFunction a.funcName a.ns, .getFunctionDescription a p,
              .GetKubelessClientOutCluster], .error e⟩
          | .ok _ =>
            match w.PatchFunctionCustomResource f with
            | .error e =>
              ⟨[.GetFunction a.funcName a.ns, .getFunctionDescription a p,
                .GetKubelessClientOutCluster, .Infof "Redeploying function...",
                .PatchFunctionCustomResource f], .error e⟩
            | .ok _ =>
              ⟨[.GetFunction a.funcName a.ns, .getFunctionDescription a p,
                .GetKubelessClientOutCluster, .Infof "Redeploying function...",
                .PatchFunctionCustomResource f,
                .Infof ("Function " ++ a.funcName ++ " submitted for deployment"),
                .Infof ("Check the deployment status executing \x27kubeless function ls "
                  ++ a.funcName ++ "\x27")], .ok ()⟩ := by
  simp only [submit, call_bind, after_bind, after_after, orFatal_bind, pure_eq]
  cases w.GetFunction a.funcName a.ns with
  | error e => rfl
  | ok p =>
    simp only
    cases w.getFunctionDescription a p with
    | error e => rfl
    | ok f =>
      simp only
      cases w.GetKubelessClientOutCluster with
      | error e => rfl
      | ok u =>
        simp only
        cases w.PatchFunctionCustomResource f with
        | error e => rfl
        | ok u2 => rfl

/-! ## The whole command -/

theorem Run_of_error (w : World) (cmd : Command) (t : List Event) (e : String)
    (h : buildOverrides w cmd = ⟨t, .error e⟩) : Run w cmd = ⟨t, .error e⟩ := by
  unfold Run; rw [h]; rfl

theorem Run_of_ok (w : World) (cmd : Command) (t : List Event) (a : DescriptionArgs)
    (h : buildOverrides w cmd = ⟨t, .ok a⟩) :
    Run w cmd = ⟨t ++ (submit w a).trace, (submit w a).result⟩ := by
  unfold Run; rw [h]; rfl

theorem Exec.cases {α : Type} (m : Exec α) :
    (∃ t e, m = ⟨t, .error e⟩) ∨ (∃ t a, m = ⟨t, .ok a⟩) := by
  obtain ⟨t, r⟩ := m
  cases r with
  | error e => exact Or.inl ⟨t, e, rfl⟩
  | ok a => exact Or.inr ⟨t, a, rfl⟩

theorem init_eq : init = initValues.toFlags := rfl

/-- The two ways `Run` can go: the override construction exits, and `Run` exits
with it; or it returns, and `Run` goes on with the submission. -/
theorem Run_cases (w : World) (cmd : Command) :
    (∃ t e, buildOverrides w cmd = ⟨t, .error e⟩ ∧ Run w cmd = ⟨t, .error e⟩ ∧
      ∀ x ∈ t, setupCall cmd x) ∨
    (∃ t a, buildOverrides w cmd = ⟨t, .ok a⟩ ∧
      Run w cmd = ⟨t ++ (submit w a).trace, (submit w a).result⟩ ∧
      ∀ x ∈ t, setupCall cmd x) := by
  have hc := (buildOverrides_calls w cmd).all
  rcases Exec.cases (buildOverrides w cmd) with ⟨t, e, h⟩ | ⟨t, a, h⟩
  · rw [h] at hc
    exact Or.inl ⟨t, e, h, Run_of_error w cmd t e h, hc⟩
  · rw [h] at hc
    exact Or.inr ⟨t, a, h, Run_of_ok w cmd t a h, hc⟩

/-- The five ways the submission can end, with the calls of each. -/
theorem submit_cases (w : World) (a : DescriptionArgs) :
    (∃ e, w.GetFunction a.funcName a.ns = .error e ∧
      submit w a = ⟨[.GetFunction a.funcName a.ns], .error e⟩) ∨
    (∃ p e, w.GetFunction a.funcName a.ns = .ok p ∧ w.getFunctionDescription a p = .error e ∧
      submit w a = ⟨[.GetFunction a.funcName a.ns, .getFunctionDescription a p], .error e⟩) ∨
    (∃ p f e, w.GetFunction a.funcName a.ns = .ok p ∧ w.getFunctionDescription a p = .ok f ∧
      w.GetKubelessClientOutCluster = .error e ∧
      submit w a = ⟨[.GetFunction a.funcName a.ns, .getFunctionDescription a p,
        .GetKubelessClientOutCluster], .error e⟩) ∨
    (∃ p f e, w.GetFunction a.funcName a.ns = .ok p ∧ w.getFunctionDescription a p = .ok f ∧
      w.GetKubelessClientOutCluster = .ok () ∧ w.PatchFunctionCustomResource f = .error e ∧
      submit w a = ⟨[.GetFunction a.funcName a.ns, .getFunctionDescription a p,
        .GetKubelessClientOutCluster, .Infof "Redeploying function...",
        .PatchFunctionCustomResource f], .error e⟩) ∨
    (∃ p f, w.GetFunction a.funcName a.ns = .ok p ∧ w.getFunctionDescription a p = .ok f ∧
      w.GetKubelessClientOutCluster = .ok () ∧ w.PatchFunctionCustomResource f = .ok () ∧
      submit w a = ⟨[.GetFunction a.funcName a.ns, .getFunctionDescription a p,
        .GetKubelessClientOutCluster, .Infof "Redeploying function...",
        .PatchFunctionCustomResource f,
        .Infof ("Function " ++ a.funcName ++ " submitted for deployment"),
        .Infof ("Check the deployment status executing \x27kubeless function ls "
          ++ a.funcName ++ "\x27")], .ok ()⟩) := by
  cases h1 : w.GetFunction a.funcName a.ns with
  | error e => exact Or.inl ⟨e, rfl, by simp only [submit_eq, h1]⟩
  | ok p =>
    refine Or.inr ?_
    cases h2 : w.getFunctionDescription a p with
    | error e => exact Or.inl ⟨p, e, rfl, h2, by simp only [submit_eq, h1, h2]⟩
    | ok f =>
      refine Or.inr ?_
      cases h3 : w.GetKubelessClientOutCluster with
      | error e => exact Or.inl ⟨p, f, e, rfl, h2, rfl, by simp only [submit_eq, h1, h2, h3]⟩
      | ok u =>
        refine Or.inr ?_
        cases h4 : w.PatchFunctionCustomResource f with
        | error e =>
          exact Or.inl ⟨p, f, e, rfl, h2, rfl, h4, by simp only [submit_eq, h1, h2, h3, h4]⟩
        | ok u2 =>
          exact Or.inr ⟨p, f, rfl, h2, rfl, h4, by simp only [submit_eq, h1, h2, h3, h4]⟩

theorem not_mem_of_setup (cmd : Command) (t : List Event) (e : Event)
    (h : ∀ x ∈ t, setupCall cmd x) (he : e.isSetup = false) : e ∉ t := by
  intro hm
  have := (h e hm).1
  rw [he] at this
  cases this

/-- C3. Whenever `utils.GetFunction(funcName, ns)` is called and returns an error
(the function is not found), the invocation ends fatally with that error, the
fetch is its last call, `getFunctionDescription` is never called and no patch is
submitted: update never creates a descriptor. -/
theorem lookup_failure_aborts (w : World) (cmd : Command) (funcName ns err : String)
    (hcall : Event.GetFunction funcName ns ∈ (Run w cmd).trace)
    (herr : w.GetFunction funcName ns = .error err) :
    (Run w cmd).result = .error err ∧
    (∃ pre, (Run w cmd).trace = pre ++ [.GetFunction funcName ns]) ∧
    (∀ a p, Event.getFunctionDescription a p ∉ (Run w cmd).trace) ∧
    (∀ f, Event.PatchFunctionCustomResource f ∉ (Run w cmd).trace) := by
  rcases Run_cases w cmd with ⟨t, e, -, hrun, hset⟩ | ⟨t, a, -, hrun, hset⟩
  · rw [hrun] at hcall
    exact absurd hcall (not_mem_of_setup cmd t _ hset rfl)
  · have hns : ∀ x, x.isSetup = false → x ∉ t := fun x hx => not_mem_of_setup cmd t x hset hx
    rw [hrun] at hcall ⊢
    simp only [List.mem_append] at hcall ⊢
    have hin : Event.GetFunction funcName ns ∈ (submit w a).trace := by
      rcases hcall with h | h
      · exact absurd h (hns (.GetFunction funcName ns) rfl)
      · exact h
    rcases submit_cases w a with ⟨e, h1, hs⟩ | ⟨p, e, h1, h2, hs⟩ | ⟨p, f, e, h1, h2, h3, hs⟩ |
      ⟨p, f, e, h1, h2, h3, h4, hs⟩ | ⟨p, f, h1, h2, h3, h4, hs⟩
    all_goals
      rw [hs] at hin ⊢
      simp at hin
      obtain ⟨rfl, rfl⟩ := hin
      rw [h1] at herr
    · injection herr with h5
      subst h5
      refine ⟨rfl, ⟨t, rfl⟩, ?_, ?_⟩
      · intro a2 p2 h
        rcases h with h | h
        · exact hns (.getFunctionDescription a2 p2) rfl h
        · simp at h
      · intro f2 h
        rcases h with h | h
        · exact hns (.PatchFunctionCustomResource f2) rfl h
        · simp at h
    all_goals cases herr

theorem filter_of_setup (cmd : Command) (t : List Event) (p : Event → Bool)
    (h : ∀ x ∈ t, setupCall cmd x) (hp : ∀ e, e.isSetup = true → p e = false) :
    t.filter p = [] := by
  rw [List.filter_eq_nil_iff]
  intro e he
  simp [hp e (h e he).1]

/-- The submission calls none of the collaborators of lines 35 to 140. -/
theorem submit_calls (w : World) (a : DescriptionArgs) :
    ∀ e ∈ (submit w a).trace, e.isSetup = false := by
  rcases submit_cases w a with ⟨e, h1, hs⟩ | ⟨p, e, h1, h2, hs⟩ | ⟨p, f, e, h1, h2, h3, hs⟩ |
    ⟨p, f, e, h1, h2, h3, h4, hs⟩ | ⟨p, f, h1, h2, h3, h4, hs⟩
  all_goals
    rw [hs]
    simp [Event.isSetup]

/-- An invocation whose validation fails does not get through the override
construction. -/
theorem buildOverrides_invalid (w : World) (cmd : Command)
    (hfail :
      (∃ loc config runtime, w.GetConfigLocation = .ok loc ∧
        w.ConfigMapsGet loc.Namespace loc.Name = .ok config ∧
        cmd.flags.runtime = .ok runtime ∧ runtime ≠ "" ∧
        (w.langruntimeNew config).IsValidRuntime runtime = false) ∨
      (∃ deps err, cmd.flags.deps = .ok deps ∧ deps ≠ "" ∧ w.ReadFile deps = .error err) ∨
      (∃ port, cmd.flags.port = .ok port ∧ ¬ (1 ≤ port ∧ port ≤ 65535)))
    (t : List Event) (a : DescriptionArgs) : buildOverrides w cmd ≠ ⟨t, .ok a⟩ := by
  intro h
  obtain ⟨loc, config, nsFlag, depsFlag, hloc, hcfg, -, -, -, -, -, -, hruntime, hvalid, -, -, -,
    -, -, -, hdeps, hread, -, hport, hp1, hp2, -⟩ := buildOverrides_ok w cmd a t h
  rcases hfail with ⟨loc2, config2, rt, hloc2, hcfg2, hrt, hne, hinv⟩ | ⟨deps, err, hd, hne, herr⟩ |
    ⟨port, hp, hbad⟩
  · rw [hloc] at hloc2
    injection hloc2 with h1
    subst h1
    rw [hcfg] at hcfg2
    injection hcfg2 with h2
    subst h2
    rw [hruntime] at hrt
    injection hrt with h3
    subst h3
    rcases hvalid with h4 | h4
    · exact hne h4
    · rw [h4] at hinv
      cases hinv
  · rw [hdeps] at hd
    injection hd with h1
    subst h1
    rw [if_neg hne, herr] at hread
    cases hread
  · rw [hport] at hp
    injection hp with h1
    subst h1
    exact hbad ⟨hp1, hp2⟩

/-- When the override construction does not return, `Run` ends fatally with the
calls of lines 35 to 140 only. -/
theorem Run_of_build_error (w : World) (cmd : Command)
    (h : ∀ t a, buildOverrides w cmd ≠ ⟨t, .ok a⟩) :
    (∃ msg, (Run w cmd).result = .error msg) ∧
    ∀ e ∈ (Run w cmd).trace, e.isSetup = true := by
  rcases Run_cases w cmd with ⟨t, e, -, hrun, hset⟩ | ⟨t, a, hbo, -, -⟩
  · rw [hrun]
    exact ⟨⟨e, rfl⟩, fun x hx => (hset x hx).1⟩
  · exact absurd hbo (h t a)

/-- C4. When an input validation fails (the runtime is given and the catalog
rejects it, the dependency file is given and cannot be read, or the port is
outside 1..65535), the invocation ends fatally before any merge:
`getFunctionDescription` is never called, the stored descriptor is not even
fetched, and no patch is submitted. -/
theorem validation_failure_aborts (w : World) (cmd : Command)
    (hfail :
      (∃ loc config runtime, w.GetConfigLocation = .ok loc ∧
        w.ConfigMapsGet loc.Namespace loc.Name = .ok config ∧
        cmd.flags.runtime = .ok runtime ∧ runtime ≠ "" ∧
        (w.langruntimeNew config).IsValidRuntime runtime = false) ∨
      (∃ deps err, cmd.flags.deps = .ok deps ∧ deps ≠ "" ∧ w.ReadFile deps = .error err) ∨
      (∃ port, cmd.flags.port = .ok port ∧ ¬ (1 ≤ port ∧ port ≤ 65535))) :
    (∃ msg, (Run w cmd).result = .error msg) ∧
    (∀ a p, Event.getFunctionDescription a p ∉ (Run w cmd).trace) ∧
    (∀ f, Event.PatchFunctionCustomResource f ∉ (Run w cmd).trace) ∧
    (∀ n ns, Event.GetFunction n ns ∉ (Run w cmd).trace) := by
  obtain ⟨hfatal, hcalls⟩ := Run_of_build_error w cmd (buildOverrides_invalid w cmd hfail)
  refine ⟨hfatal, fun a p hm => ?_, fun f hm => ?_, fun n ns hm => ?_⟩
  · have h := hcalls _ hm
    cases h
  · have h := hcalls _ hm
    cases h
  · have h := hcalls _ hm
    cases h

/-- C5. In every invocation `utils.PatchFunctionCustomResource` is called at most
once; a patch is called only after `getFunctionDescription` has returned without
error, with exactly the descriptor it returned; a failed patch is fatal and is
the last call of the invocation (no retry); and when `getFunctionDescription`
returns an error the invocation ends with that error and no patch is
submitted. -/
theorem patch_at_most_once (w : World) (cmd : Command) :
    ((Run w cmd).trace.filter Event.isPatch).length ≤ 1 ∧
    (∀ f, Event.PatchFunctionCustomResource f ∈ (Run w cmd).trace →
      ∃ a p l1 l2 l3,
        (Run w cmd).trace =
          l1 ++ .getFunctionDescription a p :: l2 ++ .PatchFunctionCustomResource f :: l3 ∧
        w.getFunctionDescription a p = .ok f) ∧
    (∀ f err, Event.PatchFunctionCustomResource f ∈ (Run w cmd).trace →
      w.PatchFunctionCustomResource f = .error err →
      (Run w cmd).result = .error err ∧
      ∃ pre, (Run w cmd).trace = pre ++ [.PatchFunctionCustomResource f]) ∧
    (∀ a p err, Event.getFunctionDescription a p ∈ (Run w cmd).trace →
      w.getFunctionDescription a p = .error err →
      (Run w cmd).result = .error err ∧
      ∀ f, Event.PatchFunctionCustomResource f ∉ (Run w cmd).trace) := by
  rcases Run_cases w cmd with ⟨t, e, -, hrun, hset⟩ | ⟨t, a, -, hrun, hset⟩
  · have hns : ∀ x, x.isSetup = false → x ∉ t := fun x hx => not_mem_of_setup cmd t x hset hx
    have hf : t.filter Event.isPatch = [] :=
      filter_of_setup cmd t _ hset (fun e he => by cases e <;> simp_all [Event.isSetup, Event.isPatch])
    rw [hrun]
    refine ⟨by simp [hf], ?_, ?_, ?_⟩
    · intro f h
      exact absurd h (hns (.PatchFunctionCustomResource f) rfl)
    · intro f err h
      exact absurd h (hns (.PatchFunctionCustomResource f) rfl)
    · intro a p err h
      exact absurd h (hns (.getFunctionDescription a p) rfl)
  · have hns : ∀ x, x.isSetup = false → x ∉ t := fun x hx => not_mem_of_setup cmd t x hset hx
    have hf : t.filter Event.isPatch = [] :=
      filter_of_setup cmd t _ hset (fun e he => by cases e <;> simp_all [Event.isSetup, Event.isPatch])
    have hp : ∀ f, Event.PatchFunctionCustomResource f ∉ t :=
      fun f => hns (.PatchFunctionCustomResource f) rfl
    have hg : ∀ a p, Event.getFunctionDescription a p ∉ t :=
      fun a p => hns (.getFunctionDescription a p) rfl
    rw [hrun]
    rcases submit_cases w a with ⟨e, h1, hs⟩ | ⟨p, e, h1, h2, hs⟩ | ⟨p, f, e, h1, h2, h3, hs⟩ |
      ⟨p, f, e, h1, h2, h3, h4, hs⟩ | ⟨p, f, h1, h2, h3, h4, hs⟩
    · rw [hs]
      refine ⟨by simp [hf, Event.isPatch], ?_, ?_, ?_⟩
      · intro f2 h
        rcases List.mem_append.mp h with h | h
        · exact absurd h (hp f2)
        · simp at h
      · intro f2 err h
        rcases List.mem_append.mp h with h | h
        · exact absurd h (hp f2)
        · simp at h
      · intro a2 p2 err h
        rcases List.mem_append.mp h with h | h
        · exact absurd h (hg a2 p2)
        · simp at h
    · rw [hs]
      refine ⟨by simp [hf, Event.isPatch], ?_, ?_, ?_⟩
      · intro f2 h
        rcases List.mem_append.mp h with h | h
        · exact absurd h (hp f2)
        · simp at h
      · intro f2 err h
        rcases List.mem_append.mp h with h | h
        · exact absurd h (hp f2)
        · simp at h
      · intro a2 p2 err h herr
        rcases List.mem_append.mp h with h | h
        · exact absurd h (hg a2 p2)
        · simp at h
          obtain ⟨rfl, rfl⟩ := h
          rw [h2] at herr
          injection herr with h5
          subst h5
          refine ⟨rfl, fun f2 h => ?_⟩
          rcases List.mem_append.mp h with h | h
          · exact absurd h (hp f2)
          · simp at h
    · rw [hs]
      refine ⟨by simp [hf, Event.isPatch], ?_, ?_, ?_⟩
      · intro f2 h
        rcases List.mem_append.mp h with h | h
        · exact absurd h (hp f2)
        · simp at h
      · intro f2 err h
        rcases List.mem_append.mp h with h | h
        · exact absurd h (hp f2)
        · simp at h
      · intro a2 p2 err h herr
        rcases List.mem_append.mp h with h | h
        · exact absurd h (hg a2 p2)
        · simp at h
          obtain ⟨rfl, rfl⟩ := h
          rw [h2] at herr
          cases herr
    · rw [hs]
      refine ⟨by simp [hf, Event.isPatch], ?_, ?_, ?_⟩
      · intro f2 h
        rcases List.mem_append.mp h with h | h
        · exact absurd h (hp f2)
        · simp at h
          subst h
          exact ⟨a, p, t ++ [.GetFunction a.funcName a.ns],
            [.GetKubelessClientOutCluster, .Infof "Redeploying function..."], [], by simp, h2⟩
      · intro f2 err h herr
        rcases List.mem_append.mp h with h | h
        · exact absurd h (hp f2)
        · simp at h
          subst h
          rw [h4] at herr
          injection herr with h5
          subst h5
          exact ⟨rfl, t ++ [.GetFunction a.funcName a.ns, .getFunctionDescription a p,
            .GetKubelessClientOutCluster, .Infof "Redeploying function..."], by simp⟩
      · intro a2 p2 err h herr
        rcases List.mem_append.mp h with h | h
        · exact absurd h (hg a2 p2)
        · simp at h
          obtain ⟨rfl, rfl⟩ := h
          rw [h2] at herr
          cases herr
    · rw [hs]
      refine ⟨by simp [hf, Event.isPatch], ?_, ?_, ?_⟩
      · intro f2 h
        rcases List.mem_append.mp h with h | h
        · exact absurd h (hp f2)
        · simp at h
          subst h
          exact ⟨a, p, t ++ [.GetFunction a.funcName a.ns],
            [.GetKubelessClientOutCluster, .Infof "Redeploying function..."],
            [.Infof ("Function " ++ a.funcName ++ " submitted for deployment"),
              .Infof ("Check the deployment status executing \x27kubeless function ls "
                ++ a.funcName ++ "\x27")], by simp, h2⟩
      · intro f2 err h herr
        rcases List.mem_append.mp h with h | h
        · exact absurd h (hp f2)
        · simp at h
          subst h
          rw [h4] at herr
          cases herr
      · intro a2 p2 err h herr
        rcases List.mem_append.mp h with h | h
        · exact absurd h (hg a2 p2)
        · simp at h
          obtain ⟨rfl, rfl⟩ := h
          rw [h2] at herr
          cases herr

theorem intercalate_go_data (acc s : String) (l : List String) :
    (String.intercalate.go acc s l).data =
      acc.data ++ (l.map (fun a => s.data ++ a.data)).flatten := by
  induction l generalizing acc with
  | nil => simp [String.intercalate.go]
  | cons a as ih => simp [String.intercalate.go, ih, String.data_append, List.append_assoc]

/-- The characters of a joined list: the characters of the elements, in their
order, with the characters of the separator between two of them. -/
theorem intercalate_data (s : String) (l : List String) :
    (s.intercalate l).data = List.intercalate s.data (l.map String.data) := by
  cases l with
  | nil => simp [String.intercalate, List.intercalate]
  | cons a as =>
    simp only [String.intercalate, intercalate_go_data]
    induction as generalizing a with
    | nil => simp [List.intercalate]
    | cons b bs ih =>
      have := ih b
      simp [List.intercalate, List.intersperse] at this ⊢
      rw [this]

/-- C1. The port check accepts a port exactly when 1 <= port <= 65535.  For an
invocation whose port is outside that range, the check exits with the message
"Invalid port number <port> specified"; the invocation ends fatally without
touching the descriptor store (neither `utils.GetFunction` nor
`utils.PatchFunctionCustomResource` is called); and when the steps before the
check pass, the message of the invocation is the one of the port check. -/
theorem port_validation (w : World) (cmd : Command) (port : Int)
    (hport : cmd.flags.port = .ok port) :
    ((checkPort port).result = .ok () ↔ 1 ≤ port ∧ port ≤ 65535) ∧
    (¬ (1 ≤ port ∧ port ≤ 65535) →
      checkPort port =
        ⟨[], .error ("Invalid port number " ++ toString port ++ " specified")⟩ ∧
      (∃ msg, (Run w cmd).result = .error msg) ∧
      (∀ n ns, Event.GetFunction n ns ∉ (Run w cmd).trace) ∧
      (∀ f, Event.PatchFunctionCustomResource f ∉ (Run w cmd).trace) ∧
      (∀ (n : String) (v : FlagValues) (loc : ConfigLocation) (config : ConfigMap)
          (content : String),
        cmd = ⟨[n], v.toFlags⟩ →
        w.GetConfigLocation = .ok loc →
        w.ConfigMapsGet loc.Namespace loc.Name = .ok config →
        (v.runtime = "" ∨ (w.langruntimeNew config).IsValidRuntime v.runtime = true) →
        (if v.deps = "" then content = "" else w.ReadFile v.deps = .ok content) →
        (Run w cmd).result =
          .error ("Invalid port number " ++ toString port ++ " specified"))) := by
  refine ⟨?_, fun hbad => ?_⟩
  · rw [checkPort_eq]
    by_cases h : 1 ≤ port ∧ port ≤ 65535
    · simp [h]
    · simp [h]
  · obtain ⟨hfatal, hcalls⟩ := Run_of_build_error w cmd
      (buildOverrides_invalid w cmd (Or.inr (Or.inr ⟨port, hport, hbad⟩)))
    have hfetch : ∀ n ns, Event.GetFunction n ns ∉ (Run w cmd).trace := by
      intro n ns hm
      have h := hcalls _ hm
      cases h
    have hpatch : ∀ f, Event.PatchFunctionCustomResource f ∉ (Run w cmd).trace := by
      intro f hm
      have h := hcalls _ hm
      cases h
    refine ⟨by rw [checkPort_eq, if_neg hbad], hfatal, hfetch, hpatch, ?_⟩
    intro n v loc config content hcmd hloc hcfg hrt hdeps
    subst hcmd
    have hp : v.port = port := by
      have h2 : Except.ok v.port = (Except.ok port : Except String Int) := hport
      injection h2
    subst hp
    rw [Run_of_error w _ _ _ (buildOverrides_of_bad_port w n v loc config content hloc hcfg hrt
      hdeps hbad)]

/-- C2. The runtime check rejects a runtime exactly when it is not empty and the
catalog reports it invalid; an empty runtime is accepted whatever the catalog
holds.  The message of a rejection names the runtime and reports the list of
`GetRuntimes()` joined by ", ": the characters of the identifiers, in the order
of the catalog, with ", " between two of them and nothing else.  An invocation
that reaches the check with a rejected runtime ends fatally with that message,
without touching the descriptor store. -/
theorem runtime_validation (w : World) (lr : Langruntimes) (runtime : String) :
    ((∃ msg, (checkRuntime lr runtime).result = .error msg) ↔
      runtime ≠ "" ∧ lr.IsValidRuntime runtime = false) ∧
    ((checkRuntime lr runtime).result = .ok () ↔
      runtime = "" ∨ lr.IsValidRuntime runtime = true) ∧
    checkRuntime lr "" = ⟨[], .ok ()⟩ ∧
    (∀ msg, (checkRuntime lr runtime).result = .error msg →
      msg = "Invalid runtime: " ++ runtime ++ ". Supported runtimes are: "
        ++ ", ".intercalate lr.GetRuntimes) ∧
    (", ".intercalate lr.GetRuntimes).data =
      List.intercalate ", ".data (lr.GetRuntimes.map String.data) ∧
    (∀ (n : String) (v : FlagValues) (loc : ConfigLocation) (config : ConfigMap),
      w.GetConfigLocation = .ok loc →
      w.ConfigMapsGet loc.Namespace loc.Name = .ok config →
      w.langruntimeNew config = lr →
      v.runtime = runtime →
      runtime ≠ "" → lr.IsValidRuntime runtime = false →
      Run w ⟨[n], v.toFlags⟩ =
        ⟨setupCalls loc config v.ns runtime "" ++ [.GetRuntimes],
          .error ("Invalid runtime: " ++ runtime ++ ". Supported runtimes are: "
            ++ ", ".intercalate lr.GetRuntimes)⟩) := by
  refine ⟨?_, ?_, ?_, ?_, ?_, ?_⟩
  · rw [checkRuntime_eq]
    by_cases h : runtime = ""
    · simp [h]
    · cases hv : lr.IsValidRuntime runtime <;> simp [h, hv]
  · rw [checkRuntime_eq]
    by_cases h : runtime = ""
    · simp [h]
    · cases hv : lr.IsValidRuntime runtime <;> simp [h, hv]
  · rw [checkRuntime_eq]
    simp
  · intro msg
    rw [checkRuntime_eq]
    by_cases h : runtime = ""
    · simp [h]
    · cases hv : lr.IsValidRuntime runtime <;> simp [h, hv]
      intro h2
      exact h2.symm
  · exact intercalate_data ", " lr.GetRuntimes
  · intro n v loc config hloc hcfg hlr hv hne hinv
    subst hlr hv
    exact Run_of_error w _ _ _ (buildOverrides_of_bad_runtime w n v loc config hloc hcfg hne hinv)

/-- Witness of C3: `update bar` on the example cluster, which stores no function
`bar`. -/
theorem lookup_failure_aborts_witness :
    Event.GetFunction "bar" "default" ∈ (Run exampleWorld ⟨["bar"], init⟩).trace ∧
    exampleWorld.GetFunction "bar" "default" = .error "function not found" ∧
    (Run exampleWorld ⟨["bar"], init⟩).result = .error "function not found" ∧
    (∀ f, Event.PatchFunctionCustomResource f ∉ (Run exampleWorld ⟨["bar"], init⟩).trace) :=
  have h := lookup_failure_aborts exampleWorld ⟨["bar"], init⟩ "bar" "default"
    "function not found" (by decide) (by decide)
  ⟨by decide, by decide, h.1, h.2.2.2⟩

/-- Witness of C4: `update foo --runtime ruby` on the example cluster, whose
catalog does not hold `ruby`. -/
theorem validation_failure_aborts_witness :
    (∃ msg, (Run exampleWorld ⟨["foo"], { init with runtime := .ok "ruby" }⟩).result
      = .error msg) ∧
    (∀ a p, Event.getFunctionDescription a p ∉
      (Run exampleWorld ⟨["foo"], { init with runtime := .ok "ruby" }⟩).trace) ∧
    (∀ f, Event.PatchFunctionCustomResource f ∉
      (Run exampleWorld ⟨["foo"], { init with runtime := .ok "ruby" }⟩).trace) :=
  have h := validation_failure_aborts exampleWorld ⟨["foo"], { init with runtime := .ok "ruby" }⟩
    (Or.inl ⟨⟨"kubeless", "kubeless-config"⟩, ⟨[]⟩, "ruby", rfl, rfl, rfl, by decide, by decide⟩)
  ⟨h.1, h.2.1, h.2.2.1⟩

/-- Witness of C5: `update foo` on the cluster whose store refuses the patch: one
patch is called, with the descriptor `getFunctionDescription` returned, and its
error ends the invocation. -/
theorem patch_at_most_once_witness :
    Event.PatchFunctionCustomResource { exampleStored with Timeout := "180" } ∈
      (Run conflictWorld ⟨["foo"], init⟩).trace ∧
    (Run conflictWorld ⟨["foo"], init⟩).result = .error "conflict" ∧
    ((Run conflictWorld ⟨["foo"], init⟩).trace.filter Event.isPatch).length ≤ 1 :=
  have h := patch_at_most_once conflictWorld ⟨["foo"], init⟩
  ⟨by decide,
    (h.2.2.1 { exampleStored with Timeout := "180" } "conflict" (by decide) (by decide)).1, h.1⟩

/-- Witness of C1: `update foo --port 65536` on the example cluster. -/
theorem port_validation_witness :
    (Run exampleWorld ⟨["foo"], { initValues with port := 65536 }.toFlags⟩).result =
      .error ("Invalid port number " ++ toString (65536 : Int) ++ " specified") ∧
    "Invalid port number " ++ toString (65536 : Int) ++ " specified" =
      "Invalid port number 65536 specified" ∧
    (∀ n ns, Event.GetFunction n ns ∉
      (Run exampleWorld ⟨["foo"], { initValues with port := 65536 }.toFlags⟩).trace) ∧
    (∀ f, Event.PatchFunctionCustomResource f ∉
      (Run exampleWorld ⟨["foo"], { initValues with port := 65536 }.toFlags⟩).trace) := by
  have h0 : ¬ (1 ≤ (65536 : Int) ∧ (65536 : Int) ≤ 65535) := by decide
  have h := (port_validation exampleWorld
    ⟨["foo"], { initValues with port := 65536 }.toFlags⟩ 65536 rfl).2 h0
  have h1 : (if ({ initValues with port := 65536 } : FlagValues).deps = "" then "" = ""
      else exampleWorld.ReadFile ({ initValues with port := 65536 } : FlagValues).deps
        = .ok "") := by
    decide
  have h2 := h.2.2.2.2 "foo" { initValues with port := 65536 } ⟨"kubeless", "kubeless-config"⟩
    ⟨[]⟩ "" rfl rfl rfl (Or.inl rfl) h1
  exact ⟨h2, by decide, h.2.2.1, h.2.2.2.1⟩

/-- Witness of C2: `update foo --runtime ruby` on the example cluster. -/
theorem runtime_validation_witness :
    Run exampleWorld ⟨["foo"], { initValues with runtime := "ruby" }.toFlags⟩ =
      ⟨[.GetClientOutOfCluster, .GetAPIExtensionsClientOutOfCluster, .GetConfigLocation,
        .ConfigMapsGet "kubeless" "kubeless-config", .langruntimeNew ⟨[]⟩,
        .GetDefaultNamespace, .IsValidRuntime "ruby", .GetRuntimes],
        .error "Invalid runtime: ruby. Supported runtimes are: python2.7, nodejs6"⟩ :=
  (runtime_validation exampleWorld exampleCatalog "ruby").2.2.2.2.2 "foo"
    { initValues with runtime := "ruby" } ⟨"kubeless", "kubeless-config"⟩ ⟨[]⟩
    rfl rfl rfl rfl (by decide) (by decide)

/-- The file reads of `Run` are the ones of the override construction. -/
theorem Run_filter_setup (w : World) (cmd : Command) (p : Event → Bool)
    (hp : ∀ e, e.isSetup = false → p e = false) :
    (Run w cmd).trace.filter p = (buildOverrides w cmd).trace.filter p := by
  rcases Run_cases w cmd with ⟨t, e, hbo, hrun, -⟩ | ⟨t, a, hbo, hrun, -⟩
  · rw [hrun, hbo]
  · rw [hrun, hbo]
    have h2 : (submit w a).trace.filter p = [] := by
      rw [List.filter_eq_nil_iff]
      intro e he
      simp [hp e (submit_calls w a e he)]
    simp [List.filter_append, h2]

theorem isReadFile_of_not_setup (e : Event) (h : e.isSetup = false) : e.isReadFile = false := by
  cases e <;> simp_all [Event.isSetup, Event.isReadFile]

theorem filter_isReadFile_setupCalls (loc : ConfigLocation) (config : ConfigMap)
    (nsFlag runtime deps : String) :
    (setupCalls loc config nsFlag runtime deps).filter Event.isReadFile =
      if deps = "" then [] else [.ReadFile deps] := by
  unfold setupCalls
  by_cases h1 : nsFlag = "" <;> by_cases h2 : runtime = "" <;> by_cases h3 : deps = "" <;>
    simp [h1, h2, h3, List.filter_cons, Event.isReadFile]

/-- Every call of `getFunctionDescription` in a trace of `Run` is made after a
successful override construction, with the values it returned, on the descriptor
the store returned for the identity of the invocation. -/
theorem description_call (w : World) (cmd : Command) (a : DescriptionArgs)
    (p : FunctionDescriptor)
    (h : Event.getFunctionDescription a p ∈ (Run w cmd).trace) :
    ∃ t, buildOverrides w cmd = ⟨t, .ok a⟩ ∧ w.GetFunction a.funcName a.ns = .ok p ∧
      ∃ post, (Run w cmd).trace =
        t ++ .GetFunction a.funcName a.ns :: .getFunctionDescription a p :: post := by
  rcases Run_cases w cmd with ⟨t, e, -, hrun, hset⟩ | ⟨t, a2, hbo, hrun, hset⟩
  · rw [hrun] at h
    exact absurd h (not_mem_of_setup cmd t _ hset rfl)
  · rw [hrun] at h ⊢
    rcases List.mem_append.mp h with h | h
    · exact absurd h (not_mem_of_setup cmd t _ hset rfl)
    · rcases submit_cases w a2 with ⟨e, h1, hs⟩ | ⟨p2, e, h1, h2, hs⟩ |
        ⟨p2, f, e, h1, h2, h3, hs⟩ | ⟨p2, f, e, h1, h2, h3, h4, hs⟩ | ⟨p2, f, h1, h2, h3, h4, hs⟩
      all_goals
        rw [hs] at h ⊢
        simp at h
      all_goals
        obtain ⟨rfl, rfl⟩ := h
        exact ⟨t, hbo, h1, _, rfl⟩

/-- Every call of `utils.GetFunction` in a trace of `Run` is made right after a
successful override construction, for the identity it returned; what follows it
is the call of `getFunctionDescription` and then, if any, the patch. -/
theorem fetch_call (w : World) (cmd : Command) (n ns : String)
    (h : Event.GetFunction n ns ∈ (Run w cmd).trace) :
    ∃ t a post, buildOverrides w cmd = ⟨t, .ok a⟩ ∧ n = a.funcName ∧ ns = a.ns ∧
      (Run w cmd).trace = t ++ .GetFunction n ns :: post ∧
      (∀ e ∈ post, e.isSetup = false ∧ e.isGetFunction = false) ∧
      (∀ f, Event.PatchFunctionCustomResource f ∈ post →
        ∃ p l2 l3, post = .getFunctionDescription a p :: l2 ++ .PatchFunctionCustomResource f :: l3)
    := by
  rcases Run_cases w cmd with ⟨t, e, -, hrun, hset⟩ | ⟨t, a, hbo, hrun, hset⟩
  · rw [hrun] at h
    exact absurd h (not_mem_of_setup cmd t _ hset rfl)
  · rw [hrun] at h ⊢
    rcases List.mem_append.mp h with h | h
    · exact absurd h (not_mem_of_setup cmd t _ hset rfl)
    · rcases submit_cases w a with ⟨e, h1, hs⟩ | ⟨p2, e, h1, h2, hs⟩ |
        ⟨p2, f, e, h1, h2, h3, hs⟩ | ⟨p2, f, e, h1, h2, h3, h4, hs⟩ | ⟨p2, f, h1, h2, h3, h4, hs⟩
      all_goals
        rw [hs] at h ⊢
        simp at h
        obtain ⟨rfl, rfl⟩ := h
        refine ⟨t, a, _, hbo, rfl, rfl, rfl, ?_, ?_⟩
      all_goals first
        | (simp [Event.isSetup, Event.isGetFunction]; done)
        | skip
      · intro f2 hf
        simp at hf
        subst hf
        exact ⟨p2, [.GetKubelessClientOutCluster, .Infof "Redeploying function..."], [], rfl⟩
      · intro f2 hf
        simp at hf
        subst hf
        exact ⟨p2, [.GetKubelessClientOutCluster, .Infof "Redeploying function..."], _, rfl⟩

/-- C7, as the claim states it, fails: in `update foo --runtime python2.7
--dependencies requirements.txt ...` on the example cluster, the catalog
validation of the runtime and the read of the dependency file are both performed
before `utils.GetFunction` is called; and in `update foo --port 0` the port
validation is performed, and ends the invocation, while `utils.GetFunction` is
never called. -/
theorem fetch_is_not_first :
    (Run exampleWorld ⟨["foo"], exampleValues.toFlags⟩).trace.take 9 =
      [.GetClientOutOfCluster, .GetAPIExtensionsClientOutOfCluster, .GetConfigLocation,
        .ConfigMapsGet "kubeless" "kubeless-config", .langruntimeNew ⟨[]⟩,
        .GetDefaultNamespace, .IsValidRuntime "python2.7", .ReadFile "requirements.txt",
        .GetFunction "foo" "default"] ∧
    (Run exampleWorld ⟨["foo"], { initValues with port := 0 }.toFlags⟩).result =
      .error "Invalid port number 0 specified" ∧
    (Run exampleWorld ⟨["foo"], { initValues with port := 0 }.toFlags⟩).trace.filter
      Event.isGetFunction = [] := by
  decide

/-- C7, amended. The order of the steps is: build the overrides, fetch the
previous descriptor, reconcile, submit the patch.  Whenever `utils.GetFunction`
is called, the calls before it are exactly the ones of the override construction
(none of them a fetch), the runtime has been validated, the dependency file has
been read and the port has been validated, all three with success; after it no
override-construction call and no second fetch is made, and a patch comes after
the call of `getFunctionDescription` that follows the fetch. -/
theorem overrides_then_fetch (w : World) (cmd : Command) (n ns : String)
    (h : Event.GetFunction n ns ∈ (Run w cmd).trace) :
    ∃ loc config nsFlag runtime deps port post,
      (Run w cmd).trace = setupCalls loc config nsFlag runtime deps ++ .GetFunction n ns :: post ∧
      (∀ e ∈ setupCalls loc config nsFlag runtime deps, e.isGetFunction = false) ∧
      cmd.flags.runtime = .ok runtime ∧
      (runtime = "" ∨ (w.langruntimeNew config).IsValidRuntime runtime = true) ∧
      cmd.flags.deps = .ok deps ∧
      (deps = "" ∨ ∃ content, w.ReadFile deps = .ok content) ∧
      cmd.flags.port = .ok port ∧ 1 ≤ port ∧ port ≤ 65535 ∧
      (∀ e ∈ post, e.isOverrideStep = false ∧ e.isGetFunction = false) ∧
      (∀ f, Event.PatchFunctionCustomResource f ∈ post →
        ∃ a p l2 l3,
          post = .getFunctionDescription a p :: l2 ++ .PatchFunctionCustomResource f :: l3) := by
  obtain ⟨t, a, post, hbo, -, -, htrace, hpost, hpatch⟩ := fetch_call w cmd n ns h
  obtain ⟨loc, config, nsFlag, depsFlag, -, -, -, -, -, -, -, -, hruntime, hvalid, -, -, -,
    -, -, -, hdeps, hread, -, hport, hp1, hp2, ht⟩ := buildOverrides_ok w cmd a t hbo
  refine ⟨loc, config, nsFlag, a.runtime, depsFlag, a.port, post, by rw [htrace, ht], ?_,
    hruntime, hvalid, hdeps, ?_, hport, hp1, hp2, ?_, ?_⟩
  · intro e he
    have hs := (buildOverrides_calls w cmd).all e (by rw [hbo, ht]; exact he)
    cases e <;> simp_all [setupCall, Event.isSetup, Event.isGetFunction]
  · by_cases hd : depsFlag = ""
    · exact Or.inl hd
    · rw [if_neg hd] at hread
      exact Or.inr ⟨a.deps, hread⟩
  · intro e he
    have := hpost e he
    refine ⟨?_, this.2⟩
    cases e <;> simp_all [Event.isSetup, Event.isOverrideStep]
  · intro f hf
    obtain ⟨p, l2, l3, hl⟩ := hpatch f hf
    exact ⟨a, p, l2, l3, hl⟩

/-- Witness of C7 amended: `update foo --runtime python2.7 --dependencies
requirements.txt ...` on the example cluster. -/
theorem overrides_then_fetch_witness :
    Event.GetFunction "foo" "default" ∈ (Run exampleWorld ⟨["foo"], exampleValues.toFlags⟩).trace ∧
    ∃ loc config nsFlag runtime deps post,
      (Run exampleWorld ⟨["foo"], exampleValues.toFlags⟩).trace =
        setupCalls loc config nsFlag runtime deps ++ .GetFunction "foo" "default" :: post ∧
      (∀ e ∈ post, e.isOverrideStep = false ∧ e.isGetFunction = false) := by
  have hmem : Event.GetFunction "foo" "default" ∈
      (Run exampleWorld ⟨["foo"], exampleValues.toFlags⟩).trace := by decide
  obtain ⟨loc, config, nsFlag, runtime, deps, port, post, h1, -, -, -, -, -, -, -, -, h2, -⟩ :=
    overrides_then_fetch exampleWorld ⟨["foo"], exampleValues.toFlags⟩ "foo" "default" hmem
  exact ⟨hmem, loc, config, nsFlag, runtime, deps, post, h1, h2⟩

/-- C8. The dependency file.  The dependency step of lines 122 to 129 reads no
file and yields the empty string when the path is empty; when it is not, it reads
the file once and yields exactly its contents, or exits with "Unable to read file
<path>: <err>" when the read fails.  In every invocation at most one file is
read, and only the file the `dependencies` flag names, when it names one.  With
an empty path no file is read and every call of `getFunctionDescription` receives
the empty string; with a non-empty path every call of `getFunctionDescription`
receives exactly the contents the read returned, after exactly one read.  An
invocation that reaches the read with a non-empty path reads the file exactly
once, and a failure of the read ends it with the message of the step. -/
theorem dependencies_file (w : World) (cmd : Command) (deps : String)
    (hdeps : cmd.flags.deps = .ok deps) :
    (readDeps w deps =
      if deps = "" then ⟨[], .ok ""⟩
      else match w.ReadFile deps with
        | .ok bytes => ⟨[.ReadFile deps], .ok bytes⟩
        | .error err =>
          ⟨[.ReadFile deps], .error ("Unable to read file " ++ deps ++ ": " ++ err)⟩) ∧
    ((Run w cmd).trace.filter Event.isReadFile).length ≤ 1 ∧
    (∀ path, Event.ReadFile path ∈ (Run w cmd).trace → path = deps ∧ deps ≠ "") ∧
    (deps = "" →
      (∀ path, Event.ReadFile path ∉ (Run w cmd).trace) ∧
      ∀ a p, Event.getFunctionDescription a p ∈ (Run w cmd).trace → a.deps = "") ∧
    (deps ≠ "" →
      ∀ a p, Event.getFunctionDescription a p ∈ (Run w cmd).trace →
        w.ReadFile deps = .ok a.deps ∧
        (Run w cmd).trace.filter Event.isReadFile = [.ReadFile deps]) ∧
    (∀ (n : String) (v : FlagValues) (loc : ConfigLocation) (config : ConfigMap),
      cmd = ⟨[n], v.toFlags⟩ →
      w.GetConfigLocation = .ok loc →
      w.ConfigMapsGet loc.Namespace loc.Name = .ok config →
      (v.runtime = "" ∨ (w.langruntimeNew config).IsValidRuntime v.runtime = true) →
      deps ≠ "" →
      (Run w cmd).trace.filter Event.isReadFile = [.ReadFile deps] ∧
      ∀ err, w.ReadFile deps = .error err →
        Run w cmd = ⟨setupCalls loc config v.ns v.runtime deps,
          .error ("Unable to read file " ++ deps ++ ": " ++ err)⟩) := by
  have hfilter := Run_filter_setup w cmd Event.isReadFile isReadFile_of_not_setup
  have hmem : ∀ path, Event.ReadFile path ∈ (Run w cmd).trace → path = deps ∧ deps ≠ "" := by
    intro path hp
    have h1 : Event.ReadFile path ∈ (Run w cmd).trace.filter Event.isReadFile :=
      List.mem_filter.mpr ⟨hp, rfl⟩
    rw [hfilter] at h1
    obtain ⟨d, hd, hne, heq⟩ := ((buildOverrides_calls w cmd).all _ (List.mem_filter.mp h1).1).2 rfl
    rw [hdeps] at hd
    injection hd with hd
    injection heq with heq
    subst hd heq
    exact ⟨rfl, hne⟩
  have hgfd : ∀ a p, Event.getFunctionDescription a p ∈ (Run w cmd).trace →
      (if deps = "" then a.deps = "" else w.ReadFile deps = .ok a.deps) ∧
      (Run w cmd).trace.filter Event.isReadFile = if deps = "" then [] else [.ReadFile deps] := by
    intro a p hp
    obtain ⟨t, hbo, -, -⟩ := description_call w cmd a p hp
    obtain ⟨loc, config, nsFlag, depsFlag, -, -, -, -, -, -, -, -, -, -, -, -, -,
      -, -, -, hd, hread, -, -, -, -, ht⟩ := buildOverrides_ok w cmd a t hbo
    rw [hdeps] at hd
    injection hd with hd
    subst hd
    refine ⟨hread, ?_⟩
    rw [hfilter, hbo, ht, filter_isReadFile_setupCalls]
  refine ⟨readDeps_eq w deps, ?_, hmem, ?_, ?_, ?_⟩
  · rw [hfilter]
    exact (buildOverrides_reads w cmd).le
  · intro hd
    refine ⟨fun path hp => (hmem path hp).2 hd, fun a p hp => ?_⟩
    have := (hgfd a p hp).1
    rwa [if_pos hd] at this
  · intro hd a p hp
    have := hgfd a p hp
    rwa [if_neg hd, if_neg hd] at this
  · intro n v loc config hcmd hloc hcfg hrt hne
    subst hcmd
    have hv : v.deps = deps := by
      have h2 : Except.ok v.deps = (Except.ok deps : Except String String) := hdeps
      injection h2
    subst hv
    cases hread : w.ReadFile v.deps with
    | error err =>
      have hbo := buildOverrides_of_bad_deps w n v loc config err hloc hcfg hrt hne hread
      refine ⟨?_, ?_⟩
      · rw [hfilter, hbo, filter_isReadFile_setupCalls, if_neg hne]
      · intro err2 h2
        injection h2 with h2
        subst h2
        exact Run_of_error w _ _ _ hbo
    | ok content =>
      refine ⟨?_, fun err h2 => by cases h2⟩
      have hd : (if v.deps = "" then content = "" else w.ReadFile v.deps = .ok content) := by
        rw [if_neg hne]; exact hread
      by_cases hport : 1 ≤ v.port ∧ v.port ≤ 65535
      · rw [hfilter, buildOverrides_of_pass w n v loc config content hloc hcfg hrt hd hport,
          filter_isReadFile_setupCalls, if_neg hne]
      · rw [hfilter, buildOverrides_of_bad_port w n v loc config content hloc hcfg hrt hd hport,
          filter_isReadFile_setupCalls, if_neg hne]

/-- C9. The other override fields.  Every call of `getFunctionDescription`
receives the handler, the from-file path, the runtime, the runtime image, the
memory, the cpu, the timeout, the port, the headless mode and the env, label and
secrets lists exactly as the flags hold them, the lists with the same elements
in the same order; and an invocation that passes validation and lookup does call
`getFunctionDescription` with these values. -/
theorem overrides_passed_through (w : World) (cmd : Command) :
    (∀ a p, Event.getFunctionDescription a p ∈ (Run w cmd).trace →
      cmd.flags.handler = .ok a.handler ∧ cmd.flags.file = .ok a.file ∧
      cmd.flags.runtime = .ok a.runtime ∧ cmd.flags.runtimeImage = .ok a.runtimeImage ∧
      cmd.flags.mem = .ok a.mem ∧ cmd.flags.cpu = .ok a.cpu ∧
      cmd.flags.timeout = .ok a.timeout ∧ cmd.flags.port = .ok a.port ∧
      cmd.flags.headless = .ok a.headless ∧ cmd.flags.envs = .ok a.envs ∧
      cmd.flags.labels = .ok a.labels ∧ cmd.flags.secrets = .ok a.secrets) ∧
    (∀ (n : String) (v : FlagValues) (loc : ConfigLocation) (config : ConfigMap)
        (content : String) (previous : FunctionDescriptor),
      cmd = ⟨[n], v.toFlags⟩ →
      w.GetConfigLocation = .ok loc →
      w.ConfigMapsGet loc.Namespace loc.Name = .ok config →
      (v.runtime = "" ∨ (w.langruntimeNew config).IsValidRuntime v.runtime = true) →
      (if v.deps = "" then content = "" else w.ReadFile v.deps = .ok content) →
      (1 ≤ v.port ∧ v.port ≤ 65535) →
      w.GetFunction n (namespaceOf w v.ns) = .ok previous →
      Event.getFunctionDescription
        ⟨n, namespaceOf w v.ns, v.handler, v.file, content, v.runtime, v.runtimeImage, v.mem,
          v.cpu, v.timeout, v.port, v.headless, v.envs, v.labels, v.secrets⟩ previous
        ∈ (Run w cmd).trace) := by
  refine ⟨?_, ?_⟩
  · intro a p hp
    obtain ⟨t, hbo, -, -⟩ := description_call w cmd a p hp
    obtain ⟨loc, config, nsFlag, depsFlag, -, -, -, -, -, hhandler, hfile, hsecrets, hruntime, -,
      hlabels, henvs, himg, hmem, hcpu, htimeout, -, -, hheadless, hport, -, -, -⟩ :=
      buildOverrides_ok w cmd a t hbo
    exact ⟨hhandler, hfile, hruntime, himg, hmem, hcpu, htimeout, hport, hheadless, henvs,
      hlabels, hsecrets⟩
  · intro n v loc config content previous hcmd hloc hcfg hrt hdeps hport hget
    subst hcmd
    rw [Run_of_ok w _ _ _ (buildOverrides_of_pass w n v loc config content hloc hcfg hrt hdeps
      hport)]
    refine List.mem_append.mpr (Or.inr ?_)
    rcases submit_cases w ⟨n, namespaceOf w v.ns, v.handler, v.file, content, v.runtime,
        v.runtimeImage, v.mem, v.cpu, v.timeout, v.port, v.headless, v.envs, v.labels,
        v.secrets⟩ with
      ⟨e, h1, hs⟩ | ⟨p2, e, h1, h2, hs⟩ | ⟨p2, f, e, h1, h2, h3, hs⟩ |
      ⟨p2, f, e, h1, h2, h3, h4, hs⟩ | ⟨p2, f, h1, h2, h3, h4, hs⟩
    · rw [hget] at h1
      cases h1
    all_goals
      rw [hget] at h1
      injection h1 with h1
      subst h1
      rw [hs]
      simp

/-- C10. The identity.  Every fetch of the stored descriptor is made for the
single positional argument as name and, as namespace, for the `namespace` flag
when it is not empty and the default namespace otherwise; at most one fetch is
made; and every call of `getFunctionDescription` receives this same name and
namespace, together with the descriptor the fetch returned for them.  No other
flag enters the identity. -/
theorem identity_fixed (w : World) (cmd : Command) :
    (∀ n ns, Event.GetFunction n ns ∈ (Run w cmd).trace →
      cmd.args = [n] ∧
      ∃ nsFlag, cmd.flags.ns = .ok nsFlag ∧
        ns = if nsFlag = "" then w.GetDefaultNamespace else nsFlag) ∧
    ((Run w cmd).trace.filter Event.isGetFunction).length ≤ 1 ∧
    (∀ a p, Event.getFunctionDescription a p ∈ (Run w cmd).trace →
      Event.GetFunction a.funcName a.ns ∈ (Run w cmd).trace ∧
      w.GetFunction a.funcName a.ns = .ok p ∧
      (Run w cmd).trace.filter Event.isGetFunction = [.GetFunction a.funcName a.ns]) ∧
    (∀ (n : String) (v : FlagValues) (loc : ConfigLocation) (config : ConfigMap)
        (content : String),
      cmd = ⟨[n], v.toFlags⟩ →
      w.GetConfigLocation = .ok loc →
      w.ConfigMapsGet loc.Namespace loc.Name = .ok config →
      (v.runtime = "" ∨ (w.langruntimeNew config).IsValidRuntime v.runtime = true) →
      (if v.deps = "" then content = "" else w.ReadFile v.deps = .ok content) →
      (1 ≤ v.port ∧ v.port ≤ 65535) →
      Event.GetFunction n (if v.ns = "" then w.GetDefaultNamespace else v.ns)
        ∈ (Run w cmd).trace) := by
  have hone : ∀ n ns, Event.GetFunction n ns ∈ (Run w cmd).trace →
      (Run w cmd).trace.filter Event.isGetFunction = [.GetFunction n ns] := by
    intro n ns h
    obtain ⟨t, a, post, hbo, -, -, htrace, hpost, -⟩ := fetch_call w cmd n ns h
    have ht : t.filter Event.isGetFunction = [] := by
      have hc := (buildOverrides_calls w cmd).all
      rw [hbo] at hc
      exact filter_of_setup cmd t _ hc
        (fun e he => by cases e <;> simp_all [Event.isSetup, Event.isGetFunction])
    have hp : post.filter Event.isGetFunction = [] := by
      rw [List.filter_eq_nil_iff]
      intro e he
      simp [(hpost e he).2]
    rw [htrace]
    simp [List.filter_append, List.filter_cons, ht, hp, Event.isGetFunction]
  refine ⟨?_, ?_, ?_, ?_⟩
  · intro n ns h
    obtain ⟨t, a, post, hbo, hn, hns, -, -, -⟩ := fetch_call w cmd n ns h
    obtain ⟨loc, config, nsFlag, depsFlag, -, -, hargs, hnsf, hnsv, -⟩ :=
      buildOverrides_ok w cmd a t hbo
    subst hn hns
    exact ⟨hargs, nsFlag, hnsf, hnsv⟩
  · by_cases hex : ∃ n ns, Event.GetFunction n ns ∈ (Run w cmd).trace
    · obtain ⟨n, ns, h⟩ := hex
      rw [hone n ns h]
      simp
    · have : (Run w cmd).trace.filter Event.isGetFunction = [] := by
        rw [List.filter_eq_nil_iff]
        intro e he
        cases e <;> simp_all [Event.isGetFunction]
      rw [this]
      simp
  · intro a p hp
    obtain ⟨t, hbo, hget, post, htrace⟩ := description_call w cmd a p hp
    have hmem : Event.GetFunction a.funcName a.ns ∈ (Run w cmd).trace := by
      rw [htrace]; simp
    exact ⟨hmem, hget, hone _ _ hmem⟩
  · intro n v loc config content hcmd hloc hcfg hrt hdeps hport
    subst hcmd
    rw [Run_of_ok w _ _ _ (buildOverrides_of_pass w n v loc config content hloc hcfg hrt hdeps
      hport)]
    refine List.mem_append.mpr (Or.inr ?_)
    rcases submit_cases w ⟨n, namespaceOf w v.ns, v.handler, v.file, content, v.runtime,
        v.runtimeImage, v.mem, v.cpu, v.timeout, v.port, v.headless, v.envs, v.labels,
        v.secrets⟩ with
      ⟨e, h1, hs⟩ | ⟨p2, e, h1, h2, hs⟩ | ⟨p2, f, e, h1, h2, h3, hs⟩ |
      ⟨p2, f, e, h1, h2, h3, h4, hs⟩ | ⟨p2, f, h1, h2, h3, h4, hs⟩
    all_goals
      rw [hs]
      simp [namespaceOf]

/-- A patch is submitted only with the descriptor a call of
`getFunctionDescription` of the same invocation returned. -/
theorem patch_origin (w : World) (cmd : Command) (f : FunctionDescriptor)
    (h : Event.PatchFunctionCustomResource f ∈ (Run w cmd).trace) :
    ∃ a p, Event.getFunctionDescription a p ∈ (Run w cmd).trace ∧
      w.getFunctionDescription a p = .ok f := by
  rcases Run_cases w cmd with ⟨t, e, -, hrun, hset⟩ | ⟨t, a, -, hrun, hset⟩
  · rw [hrun] at h
    exact absurd h (not_mem_of_setup cmd t _ hset rfl)
  · rw [hrun] at h ⊢
    rcases List.mem_append.mp h with h | h
    · exact absurd h (not_mem_of_setup cmd t _ hset rfl)
    · rcases submit_cases w a with ⟨e, h1, hs⟩ | ⟨p, e, h1, h2, hs⟩ | ⟨p, f2, e, h1, h2, h3, hs⟩ |
        ⟨p, f2, e, h1, h2, h3, h4, hs⟩ | ⟨p, f2, h1, h2, h3, h4, hs⟩
      all_goals
        rw [hs] at h ⊢
        simp at h
      all_goals
        subst h
        exact ⟨a, p, by simp, h2⟩

theorem ok_inj {α : Type} {x y : α} (h : (Except.ok x : Except String α) = .ok y) : y = x := by
  injection h with h
  exact h.symm

/-- The reconciliation of a descriptor with the overrides of an invocation that
sets no flag. -/
theorem reconcile_defaults (parseLabel : String → String × String) (n ns : String)
    (previous : FunctionDescriptor) :
    reconcile previous (overrideSet parseLabel none
      ⟨n, ns, "", "", "", "", "", "", "", "180", 8080, false, [], [], []⟩) =
      { previous with Timeout := "180", Port := 8080, Headless := false } := by
  simp [reconcile, overrideSet, provided]

/-- C6, as the claim states it, fails: `update foo` with no flag on the example
cluster, whose store holds `foo` with timeout "30", submits `foo` with timeout
"180", which is not the stored descriptor. -/
theorem update_without_flags_changes_timeout :
    exampleWorld.GetFunction "foo" "default" = .ok exampleStored ∧
    (Run exampleWorld ⟨["foo"], init⟩).trace.filter Event.isPatch =
      [.PatchFunctionCustomResource { exampleStored with Timeout := "180" }] ∧
    ({ exampleStored with Timeout := "180" } : FunctionDescriptor) ≠ exampleStored ∧
    reconcile exampleStored (overrideSet exampleParseLabel none
      ⟨"foo", "default", "", "", "", "", "", "", "", "180", 8080, false, [], [], []⟩)
      ≠ exampleStored := by
  decide

/-- C6, amended. In an invocation that sets no flag the values handed to
`getFunctionDescription` are the defaults of `init`: every textual value and
every list is empty, the timeout is "180", the port 8080 and the headless mode
false.  With the reconciler of the specification, every descriptor submitted to
the store is the stored descriptor with its timeout, port and headless mode
replaced by "180", 8080 and false, and every other field unchanged; it is
submitted whenever the cluster configuration, the lookup and the client are
available; and it equals the stored descriptor exactly when that one already has
timeout "180", port 8080 and headless false. -/
theorem update_without_flags (w : World) (readCode : String → Except String String)
    (parseLabel : String → String × String) (args : List String)
    (hgfd : w.getFunctionDescription = getFunctionDescription readCode parseLabel) :
    (∀ a p, Event.getFunctionDescription a p ∈ (Run w ⟨args, init⟩).trace →
      args = [a.funcName] ∧
      a = ⟨a.funcName, w.GetDefaultNamespace, "", "", "", "", "", "", "", "180", 8080, false,
        [], [], []⟩) ∧
    (∀ f, Event.PatchFunctionCustomResource f ∈ (Run w ⟨args, init⟩).trace →
      ∃ n previous, args = [n] ∧ w.GetFunction n w.GetDefaultNamespace = .ok previous ∧
        f = { previous with Timeout := "180", Port := 8080, Headless := false }) ∧
    (∀ (n : String) (loc : ConfigLocation) (config : ConfigMap) (previous : FunctionDescriptor),
      args = [n] →
      w.GetConfigLocation = .ok loc →
      w.ConfigMapsGet loc.Namespace loc.Name = .ok config →
      w.GetFunction n w.GetDefaultNamespace = .ok previous →
      w.GetKubelessClientOutCluster = .ok () →
      Event.PatchFunctionCustomResource
        { previous with Timeout := "180", Port := 8080, Headless := false }
        ∈ (Run w ⟨args, init⟩).trace) ∧
    (∀ previous : FunctionDescriptor,
      { previous with Timeout := "180", Port := 8080, Headless := false } = previous ↔
        previous.Timeout = "180" ∧ previous.Port = 8080 ∧ previous.Headless = false) := by
  have hargs : ∀ a p, Event.getFunctionDescription a p ∈ (Run w ⟨args, init⟩).trace →
      args = [a.funcName] ∧
      a = ⟨a.funcName, w.GetDefaultNamespace, "", "", "", "", "", "", "", "180", 8080, false,
        [], [], []⟩ := by
    intro a p hp
    obtain ⟨t, hbo, -, -⟩ := description_call w _ a p hp
    obtain ⟨loc, config, nsFlag, depsFlag, -, -, hargs, hnsf, hnsv, hhandler, hfile, hsecrets,
      hruntime, -, hlabels, henvs, himg, hmem, hcpu, htimeout, hdeps, hread, hheadless, hport,
      -, -, -⟩ := buildOverrides_ok w _ a t hbo
    have e0 : nsFlag = "" := ok_inj hnsf
    have e1 : a.handler = "" := ok_inj hhandler
    have e2 : a.file = "" := ok_inj hfile
    have e3 : a.secrets = [] := ok_inj hsecrets
    have e4 : a.runtime = "" := ok_inj hruntime
    have e5 : a.labels = [] := ok_inj hlabels
    have e6 : a.envs = [] := ok_inj henvs
    have e7 : a.runtimeImage = "" := ok_inj himg
    have e8 : a.mem = "" := ok_inj hmem
    have e9 : a.cpu = "" := ok_inj hcpu
    have e10 : a.timeout = "180" := ok_inj htimeout
    have e11 : depsFlag = "" := ok_inj hdeps
    have e12 : a.headless = false := ok_inj hheadless
    have e13 : a.port = 8080 := ok_inj hport
    rw [e11, if_pos rfl] at hread
    rw [e0] at hnsv
    have e14 : a.ns = w.GetDefaultNamespace := hnsv
    refine ⟨hargs, ?_⟩
    obtain ⟨funcName, ns, handler, file, deps, runtime, runtimeImage, mem, cpu, timeout, port,
      headless, envs, labels, secrets⟩ := a
    simp only at e1 e2 e3 e4 e5 e6 e7 e8 e9 e10 e12 e13 e14 hread
    subst e1 e2 e3 e4 e5 e6 e7 e8 e9 e10 e12 e13 e14 hread
    rfl
  refine ⟨hargs, ?_, ?_, ?_⟩
  · intro f hf
    obtain ⟨a, p, hp, hok⟩ := patch_origin w ⟨args, init⟩ f hf
    obtain ⟨ha1, ha2⟩ := hargs a p hp
    obtain ⟨t, -, hget, -⟩ := description_call w _ a p hp
    rw [ha2] at hget hok
    refine ⟨a.funcName, p, ha1, hget, ?_⟩
    rw [hgfd] at hok
    simp only [getFunctionDescription, if_true] at hok
    injection hok with hok
    rw [← hok, reconcile_defaults]
  · intro n loc config previous hn hloc hcfg hget hclient
    subst hn
    have hbo := buildOverrides_of_pass w n initValues loc config "" hloc hcfg (Or.inl rfl)
      (by simp [initValues]) (by decide)
    have hrun := Run_of_ok w ⟨[n], init⟩ _ _ hbo
    rw [hrun]
    refine List.mem_append.mpr (Or.inr ?_)
    have hd : w.getFunctionDescription
        ⟨n, w.GetDefaultNamespace, "", "", "", "", "", "", "", "180", 8080, false, [], [], []⟩
        previous =
        .ok { previous with Timeout := "180", Port := 8080, Headless := false } := by
      rw [hgfd]
      simp only [getFunctionDescription, if_true]
      rw [reconcile_defaults]
    rcases submit_cases w ⟨n, namespaceOf w initValues.ns, initValues.handler, initValues.file,
        "", initValues.runtime, initValues.runtimeImage, initValues.mem, initValues.cpu,
        initValues.timeout, initValues.port, initValues.headless, initValues.envs,
        initValues.labels, initValues.secrets⟩ with
      ⟨e, h1, hs⟩ | ⟨p2, e, h1, h2, hs⟩ | ⟨p2, f, e, h1, h2, h3, hs⟩ |
      ⟨p2, f, e, h1, h2, h3, h4, hs⟩ | ⟨p2, f, h1, h2, h3, h4, hs⟩
    · have h1b : w.GetFunction n w.GetDefaultNamespace = .error e := h1
      rw [hget] at h1b
      cases h1b
    · have h1b : w.GetFunction n w.GetDefaultNamespace = .ok p2 := h1
      rw [hget] at h1b
      injection h1b with h1b
      subst h1b
      have h2b : w.getFunctionDescription
        ⟨n, w.GetDefaultNamespace, "", "", "", "", "", "", "", "180", 8080, false, [], [], []⟩
        previous = .error e := h2
      rw [hd] at h2b
      cases h2b
    · rw [hclient] at h3
      cases h3
    · have h1b : w.GetFunction n w.GetDefaultNamespace = .ok p2 := h1
      rw [hget] at h1b
      injection h1b with h1b
      subst h1b
      have h2b : w.getFunctionDescription
        ⟨n, w.GetDefaultNamespace, "", "", "", "", "", "", "", "180", 8080, false, [], [], []⟩
        previous = .ok f := h2
      rw [hd] at h2b
      injection h2b with h2b
      subst h2b
      rw [hs]
      simp
    · have h1b : w.GetFunction n w.GetDefaultNamespace = .ok p2 := h1
      rw [hget] at h1b
      injection h1b with h1b
      subst h1b
      have h2b : w.getFunctionDescription
        ⟨n, w.GetDefaultNamespace, "", "", "", "", "", "", "", "180", 8080, false, [], [], []⟩
        previous = .ok f := h2
      rw [hd] at h2b
      injection h2b with h2b
      subst h2b
      rw [hs]
      simp
  · intro previous
    obtain ⟨Name, Namespace, Runtime, Handler, Code, Deps, Cpu, Memory, Timeout, Headless, Port,
      Labels, Env, Secrets⟩ := previous
    simp only [FunctionDescriptor.mk.injEq, true_and, and_true]
    constructor
    · rintro ⟨h1, h2, h3⟩
      exact ⟨h1.symm, h3.symm, h2.symm⟩
    · rintro ⟨h1, h2, h3⟩
      exact ⟨h1.symm, h3.symm, h2.symm⟩

/-- Witness of C6 amended: `update foo` with no flag on the example cluster. -/
theorem update_without_flags_witness :
    Event.PatchFunctionCustomResource
      { exampleStored with Timeout := "180", Port := 8080, Headless := false }
      ∈ (Run exampleWorld ⟨["foo"], init⟩).trace :=
  (update_without_flags exampleWorld (fun _ => .error "no such file or directory")
    exampleParseLabel ["foo"] rfl).2.2.1 "foo" ⟨"kubeless", "kubeless-config"⟩ ⟨[]⟩
    exampleStored rfl rfl rfl rfl rfl

/-- Witness of C8: `update foo --dependencies missing.txt` on the example
cluster, which has no such file: the file is read once and the read failure ends
the invocation. -/
theorem dependencies_file_witness :
    (Run exampleWorld ⟨["foo"], { initValues with deps := "missing.txt" }.toFlags⟩).trace.filter
      Event.isReadFile = [.ReadFile "missing.txt"] ∧
    (Run exampleWorld ⟨["foo"], { initValues with deps := "missing.txt" }.toFlags⟩).result =
      .error "Unable to read file missing.txt: no such file or directory" := by
  have h := (dependencies_file exampleWorld
    ⟨["foo"], { initValues with deps := "missing.txt" }.toFlags⟩ "missing.txt" rfl).2.2.2.2.2
    "foo" { initValues with deps := "missing.txt" } ⟨"kubeless", "kubeless-config"⟩ ⟨[]⟩
    rfl rfl rfl (Or.inl rfl) (by decide)
  refine ⟨h.1, ?_⟩
  rw [h.2 "no such file or directory" rfl]
  decide

/-- Witness of C9: `update foo --runtime python2.7 --dependencies
requirements.txt --handler handler.hi --timeout 10 --port 9090 --env A=1 --env
B=2` on the example cluster. -/
theorem overrides_passed_through_witness :
    Event.getFunctionDescription
      ⟨"foo", "default", "handler.hi", "", "flask==1.0", "python2.7", "", "", "", "10", 9090,
        false, ["A=1", "B=2"], [], []⟩ exampleStored
      ∈ (Run exampleWorld ⟨["foo"], exampleValues.toFlags⟩).trace :=
  (overrides_passed_through exampleWorld ⟨["foo"], exampleValues.toFlags⟩).2 "foo" exampleValues
    ⟨"kubeless", "kubeless-config"⟩ ⟨[]⟩ "flask==1.0" exampleStored rfl rfl rfl
    (Or.inr (by decide)) (by decide) (by decide) (by decide)

/-- Witness of C10: `update foo --namespace default --runtime python2.7` on the
example cluster fetches `foo` in `default`. -/
theorem identity_fixed_witness :
    Event.GetFunction "foo" "default" ∈
      (Run exampleWorld
        ⟨["foo"], { initValues with ns := "default", runtime := "python2.7" }.toFlags⟩).trace ∧
    (Run exampleWorld
        ⟨["foo"], { initValues with ns := "default", runtime := "python2.7" }.toFlags⟩).trace.filter
      Event.isGetFunction = [.GetFunction "foo" "default"] := by
  have h := identity_fixed exampleWorld
    ⟨["foo"], { initValues with ns := "default", runtime := "python2.7" }.toFlags⟩
  have h1 := h.2.2.2 "foo" { initValues with ns := "default", runtime := "python2.7" }
    ⟨"kubeless", "kubeless-config"⟩ ⟨[]⟩ "" rfl rfl rfl (Or.inr (by decide)) (by decide)
    (by decide)
  exact ⟨h1, by decide⟩

end Kubeless
